import Mathlib

/-!
Shallow embedding of the convert_proto2ts compiler pipeline
(lexer → parser → generator orchestrated by `compile`), translated from the
repository's TypeScript sources:

  * token model and `LexerError`           — lexer/TokenType.ts (const-enum variant)
  * lexer                                  — lexer/Lexer.ts (the variant importing `./helper`)
  * character-class helpers                — lexer/helper.ts
  * parser, AST model, helpers             — parser/Parser.ts (the feature-complete class
                                             with `_nextEffect` lookahead), parser/ASTType.ts,
                                             parser/helper.ts
  * generator field-type mapping           — compiler/helper.ts
  * orchestrator `compile`                 — compiler/compile.ts (the variant that maps
                                             lexical errors into `CompilerError` records)

JavaScript strings are embedded as `List Char`; a JavaScript number that may be
`undefined` or `NaN` is embedded as `JsNum`.  Loops are embedded as fuel-indexed
recursive functions: lexer loops receive ample fuel (`source.length + 1`, justified
by the forward-progress lemma `lexStep_progress` below), while the parser — whose
recovery loops can genuinely fail to make progress, see the theorems on C5 — takes
an explicit fuel argument threaded down from `compileFuel`, one unit consumed per
call, and reports exhaustion as `PStuck.fuelOut`.
-/

namespace Proto

/-- JavaScript string, embedded as its list of characters. -/
abbrev Str := List Char

/-- A JavaScript numeric value that may also be `undefined` or `NaN`
(needed because `compile` reads a property that `LexerError` does not have). -/
inductive JsNum where
  | num (n : Nat)
  | undef
  | nan
deriving DecidableEq, Repr

/-- `undefined + 1` is `NaN`; `NaN + 1` is `NaN`. -/
def JsNum.add1 : JsNum → JsNum
  | .num n => .num (n + 1)
  | .undef => .nan
  | .nan => .nan

/-- Token kinds, from the const-enum `TokenType` of lexer/TokenType.ts
(the variant that includes the keyword and symbol kinds used by the
feature-complete parser).  `SYNTAX` is rendered `SYNTAX_KW` for Lean. -/
inductive TokenType where
  | IDENTIFIER | STRING_LITERAL | NUMBER_LITERAL
  | SYNTAX_KW | PACKAGE | IMPORT | MESSAGE | ENUM | SERVICE | OPTION | RPC
  | RETURNS | OPTIONAL | REPEATED | REQUIRED | MAP | ONEOF | TO | RESERVED
  | EXTENSIONS | EXTEND | PUBLIC | TRUE | FALSE
  | DOUBLE | FLOAT | INT32 | INT64 | UINT32 | UINT64 | SINT32 | SINT64
  | FIXED32 | FIXED64 | SFIXED32 | SFIXED64 | BOOL | STRING | BYTES
  | SEMICOLON | COMMA | DOT | EQUAL | LBRACE | RBRACE | LBRACKET | RBRACKET
  | L_PARENTHESES | R_PARENTHESES | L_ANGLE | R_ANGLE | SLASH | STAR
  | COMMENT | COLON | EOF
deriving DecidableEq, Repr

/-- `interface Token` of lexer/TokenType.ts; `end` is rendered `endPos`. -/
structure Token where
  type : TokenType
  value : Str
  line : Nat
  column : Nat
  start : Nat
  endPos : Nat
deriving DecidableEq, Repr

/-- `interface LexerError` of lexer/TokenType.ts: it carries a message and a
line/column pair only — in particular no absolute source offset. -/
structure LexError where
  message : Str
  line : Nat
  column : Nat
deriving DecidableEq, Repr

structure LexerOutput where
  tokens : List Token
  errors : List LexError
deriving DecidableEq, Repr

/-! ### Character classes (lexer/helper.ts)

Each helper is `regex.test(x)` on a JavaScript string; the lexer only ever
passes the empty string or a one-character string, embedded as `Option Char`,
while the parser passes whole token values (see `isIdentifierCharS`).
`\s` is modelled on its ASCII subset, which covers every character class the
repository's sources exercise. -/

def isWhitespaceC (c : Char) : Bool :=
  c = ' ' ∨ c = '\t' ∨ c = '\n' ∨ c = '\r' ∨ c = '\x0b' ∨ c = '\x0c'

def isDigitC (c : Char) : Bool := '0' ≤ c ∧ c ≤ '9'

def isIdentifierStartC (c : Char) : Bool :=
  ('a' ≤ c ∧ c ≤ 'z') ∨ ('A' ≤ c ∧ c ≤ 'Z') ∨ c = '_'

def isIdentifierCharC (c : Char) : Bool := isIdentifierStartC c ∨ isDigitC c

/-- `/\s/.test(s)` for the `''`-or-one-char strings returned by `_current`/`_next`. -/
def isWhitespaceO : Option Char → Bool
  | none => false
  | some c => isWhitespaceC c

def isDigitO : Option Char → Bool
  | none => false
  | some c => isDigitC c

def isIdentifierStartO : Option Char → Bool
  | none => false
  | some c => isIdentifierStartC c

/-- `/[a-zA-Z0-9_]/.test(value)` applied to a whole token value, as
Parser.ts does (`isIdentifierChar(this._current().value)`): a regex without
anchors tests whether ANY character matches. -/
def isIdentifierCharS (s : Str) : Bool := s.any isIdentifierCharC

/-- Modelled from the spec: lexer/define.ts (the `KEYWORDS` table) is not under
src/.  §4.1: keyword lookup is case-insensitive against a static table mapping
each keyword of the const-enum `TokenType` to its kind; anything else is
IDENTIFIER.  The table is keyed by the lower-cased spelling. -/
def keywordType (s : Str) : Option TokenType :=
  if s = "syntax".data then some .SYNTAX_KW
  else if s = "package".data then some .PACKAGE
  else if s = "import".data then some .IMPORT
  else if s = "message".data then some .MESSAGE
  else if s = "enum".data then some .ENUM
  else if s = "service".data then some .SERVICE
  else if s = "option".data then some .OPTION
  else if s = "rpc".data then some .RPC
  else if s = "returns".data then some .RETURNS
  else if s = "optional".data then some .OPTIONAL
  else if s = "repeated".data then some .REPEATED
  else if s = "required".data then some .REQUIRED
  else if s = "map".data then some .MAP
  else if s = "oneof".data then some .ONEOF
  else if s = "to".data then some .TO
  else if s = "reserved".data then some .RESERVED
  else if s = "extensions".data then some .EXTENSIONS
  else if s = "extend".data then some .EXTEND
  else if s = "public".data then some .PUBLIC
  else if s = "true".data then some .TRUE
  else if s = "false".data then some .FALSE
  else if s = "double".data then some .DOUBLE
  else if s = "float".data then some .FLOAT
  else if s = "int32".data then some .INT32
  else if s = "int64".data then some .INT64
  else if s = "uint32".data then some .UINT32
  else if s = "uint64".data then some .UINT64
  else if s = "sint32".data then some .SINT32
  else if s = "sint64".data then some .SINT64
  else if s = "fixed32".data then some .FIXED32
  else if s = "fixed64".data then some .FIXED64
  else if s = "sfixed32".data then some .SFIXED32
  else if s = "sfixed64".data then some .SFIXED64
  else if s = "bool".data then some .BOOL
  else if s = "string".data then some .STRING
  else if s = "bytes".data then some .BYTES
  else none

/-- Modelled from the spec: lexer/define.ts (the `SYMBOLS` table) is not under
src/.  One entry per single-character symbol kind documented on the const-enum
`TokenType` (§4.1: single-character symbol, table lookup). -/
def symbolType (c : Char) : Option TokenType :=
  if c = ';' then some .SEMICOLON
  else if c = ',' then some .COMMA
  else if c = '.' then some .DOT
  else if c = '=' then some .EQUAL
  else if c = '\x7b' then some .LBRACE
  else if c = '\x7d' then some .RBRACE
  else if c = '[' then some .LBRACKET
  else if c = ']' then some .RBRACKET
  else if c = '(' then some .L_PARENTHESES
  else if c = ')' then some .R_PARENTHESES
  else if c = '<' then some .L_ANGLE
  else if c = '>' then some .R_ANGLE
  else if c = '/' then some .SLASH
  else if c = '*' then some .STAR
  else if c = ':' then some .COLON
  else none

/-- `value.toLowerCase()` on an ASCII identifier. -/
def toLowerStr (s : Str) : Str := s.map Char.toLower

/-! ### Lexer state and helpers (Lexer.ts) -/

structure LexState where
  source : Str
  position : Nat
  line : Nat
  column : Nat
  tokens : List Token
  errors : List LexError
deriving Repr

/-- `_current()`: `''` (here `none`) when out of bounds. -/
def lexCurrent (s : LexState) : Option Char :=
  if s.position ≥ s.source.length then none else some (s.source.getD s.position ' ')

/-- `_next()`: `''` (here `none`) when out of bounds. -/
def lexNext (s : LexState) : Option Char :=
  if s.position + 1 ≥ s.source.length then none else some (s.source.getD (s.position + 1) ' ')

/-- `_createToken`: `end` is the CURRENT scan position at creation time. -/
def mkToken (s : LexState) (type : TokenType) (value : Str)
    (start startLine startColumn : Nat) : Token :=
  { type, value, line := startLine, column := startColumn, start, endPos := s.position }

/-- `_addError` — note that no absolute offset is recorded. -/
def lexAddError (s : LexState) (message : Str) (line column : Nat) : LexState :=
  { s with errors := s.errors ++ [{ message, line, column }] }

/-- `source.slice(start, stop)`. -/
def sliceStr (src : Str) (start stop : Nat) : Str := (src.drop start).take (stop - start)

/-- `_skipWhitespace`'s loop; returns (position, line, column). -/
def skipWsLoop : Nat → Str → Nat → Nat → Nat → Nat × Nat × Nat
  | 0, _, pos, line, col => (pos, line, col)
  | fuel + 1, src, pos, line, col =>
    if pos < src.length then
      let c := src.getD pos ' '
      if isWhitespaceC c then
        if c = '\n' then skipWsLoop fuel src (pos + 1) (line + 1) 1
        else skipWsLoop fuel src (pos + 1) line (col + 1)
      else (pos, line, col)
    else (pos, line, col)

/-- `_readLineComment`'s loop; returns (position, column). -/
def lineCommentLoop : Nat → Str → Nat → Nat → Nat × Nat
  | 0, _, pos, col => (pos, col)
  | fuel + 1, src, pos, col =>
    if pos < src.length ∧ src.getD pos ' ' ≠ '\n' then
      lineCommentLoop fuel src (pos + 1) (col + 1)
    else (pos, col)

/-- `_readBlockComment`'s loop; returns (position, line, column).  The
line/column update precedes the `*/` test within each iteration, exactly as in
the source. -/
def blockCommentLoop : Nat → Str → Nat → Nat → Nat → Nat × Nat × Nat
  | 0, _, pos, line, col => (pos, line, col)
  | fuel + 1, src, pos, line, col =>
    if pos < src.length then
      let c := src.getD pos ' '
      let line1 := if c = '\n' then line + 1 else line
      let col1 := if c = '\n' then 1 else col + 1
      if c = '*' ∧ pos + 1 < src.length ∧ src.getD (pos + 1) ' ' = '/' then
        (pos + 2, line1, col1 + 2)
      else blockCommentLoop fuel src (pos + 1) line1 col1
    else (pos, line, col)

/-- The `if/else if` chain decoding the character after a backslash in
`_readStringLiteral`; every unlisted character falls through to itself. -/
def decodeEscape (c : Char) : Char :=
  if c = 'n' then '\n'
  else if c = 't' then '\t'
  else if c = 'r' then '\r'
  else if c = '\\' then '\\'
  else if c = '"' then '"'
  else c

/-- `_readStringLiteral`'s scanning loop; returns (value, position, column). -/
def readStrLoop : Nat → Str → Char → Nat → Nat → Str → Str × Nat × Nat
  | 0, _, _, pos, col, value => (value, pos, col)
  | fuel + 1, src, quote, pos, col, value =>
    if pos < src.length ∧ src.getD pos ' ' ≠ quote then
      let c := src.getD pos ' '
      if c = '\\' ∧ pos + 1 < src.length then
        readStrLoop fuel src quote (pos + 2) (col + 2) (value ++ [decodeEscape (src.getD (pos + 1) ' ')])
      else readStrLoop fuel src quote (pos + 1) (col + 1) (value ++ [c])
    else (value, pos, col)

/-- `_readStringLiteral`: `none` plus a recorded error when the source ends
before the closing quote, otherwise the STRING_LITERAL token. -/
def readStringLiteral (s : LexState) (quote : Char) : Option Token × LexState :=
  let start := s.position
  let startLine := s.line
  let startColumn := s.column
  let r := readStrLoop (s.source.length + 1) s.source quote (s.position + 1) (s.column + 1) []
  let value := r.1
  let pos2 := r.2.1
  let col2 := r.2.2
  if pos2 ≥ s.source.length then
    (none, lexAddError { s with position := pos2, column := col2 }
      "Unterminated string literal".data startLine startColumn)
  else
    let s' := { s with position := pos2 + 1, column := col2 + 1 }
    (some (mkToken s' .STRING_LITERAL value start startLine startColumn), s')

/-- `_skipWhitespace` acting on the whole state. -/
def skipWhitespace (s : LexState) : LexState :=
  let r := skipWsLoop (s.source.length + 1) s.source s.position s.line s.column
  { s with position := r.1, line := r.2.1, column := r.2.2 }

/-- `_readLineComment`: consumes to end of line and pushes a COMMENT token. -/
def readLineComment (s : LexState) : LexState :=
  let start := s.position
  let startLine := s.line
  let startColumn := s.column
  let r := lineCommentLoop (s.source.length + 1) s.source (s.position + 2) (s.column + 2)
  let s' := { s with position := r.1, column := r.2 }
  let comment := sliceStr s.source start s'.position
  { s' with tokens := s'.tokens ++ [mkToken s' .COMMENT comment start startLine startColumn] }

/-- `_readBlockComment`: on reaching the end of input (which, faithfully to the
source, includes a `*/` that ends exactly at the end of input) records
"Unterminated block comment" and pushes no token. -/
def readBlockComment (s : LexState) : LexState :=
  let start := s.position
  let startLine := s.line
  let startColumn := s.column
  let r := blockCommentLoop (s.source.length + 1) s.source (s.position + 2) s.line (s.column + 2)
  let s' := { s with position := r.1, line := r.2.1, column := r.2.2 }
  if s'.position ≥ s.source.length then
    lexAddError s' "Unterminated block comment".data startLine startColumn
  else
    let comment := sliceStr s.source start s'.position
    { s' with tokens := s'.tokens ++ [mkToken s' .COMMENT comment start startLine startColumn] }

/-- digit-run loop shared by `_readNumber`; returns (position, column). -/
def digitLoop : Nat → Str → Nat → Nat → Nat × Nat
  | 0, _, pos, col => (pos, col)
  | fuel + 1, src, pos, col =>
    if pos < src.length ∧ isDigitC (src.getD pos ' ') then
      digitLoop fuel src (pos + 1) (col + 1)
    else (pos, col)

/-- `_readNumber`: optional leading `-`, digit run, optional `.` + digit run. -/
def readNumber (s : LexState) : Token × LexState :=
  let start := s.position
  let startLine := s.line
  let startColumn := s.column
  let p0 := if lexCurrent s = some '-' then s.position + 1 else s.position
  let c0 := if lexCurrent s = some '-' then s.column + 1 else s.column
  let r1 := digitLoop (s.source.length + 1) s.source p0 c0
  let sMid : LexState := { s with position := r1.1, column := r1.2 }
  let r2 :=
    if lexCurrent sMid = some '.' then
      digitLoop (s.source.length + 1) s.source (sMid.position + 1) (sMid.column + 1)
    else (sMid.position, sMid.column)
  let s' := { s with position := r2.1, column := r2.2 }
  let value := sliceStr s.source start s'.position
  (mkToken s' .NUMBER_LITERAL value start startLine startColumn, s')

/-- identifier-run loop of `_readIdentifier`; returns (position, column). -/
def identLoop : Nat → Str → Nat → Nat → Nat × Nat
  | 0, _, pos, col => (pos, col)
  | fuel + 1, src, pos, col =>
    if pos < src.length ∧ isIdentifierCharC (src.getD pos ' ') then
      identLoop fuel src (pos + 1) (col + 1)
    else (pos, col)

/-- `_readIdentifier`: identifier run, then case-insensitive keyword lookup. -/
def readIdentifier (s : LexState) : Token × LexState :=
  let start := s.position
  let startLine := s.line
  let startColumn := s.column
  let r := identLoop (s.source.length + 1) s.source s.position s.column
  let s' := { s with position := r.1, column := r.2 }
  let value := sliceStr s.source start s'.position
  let type := (keywordType (toLowerStr value)).getD .IDENTIFIER
  (mkToken s' type value start startLine startColumn, s')

/-- One iteration of `tokenize`'s dispatch loop (caller guarantees
`position < source.length`). -/
def lexStep (s : LexState) : LexState :=
  let start := s.position
  let c := s.source.getD s.position ' '
  if isWhitespaceC c then skipWhitespace s
  else if c = '/' ∧ lexNext s = some '/' then readLineComment s
  else if c = '/' ∧ lexNext s = some '*' then readBlockComment s
  else if c = '"' then
    match readStringLiteral s c with
    | (some t, s') => { s' with tokens := s'.tokens ++ [t] }
    | (none, s') => s'
  else if isDigitC c ∨ (c = '-' ∧ isDigitO (lexNext s)) then
    let r := readNumber s
    { r.2 with tokens := r.2.tokens ++ [r.1] }
  else if isIdentifierStartC c then
    let r := readIdentifier s
    { r.2 with tokens := r.2.tokens ++ [r.1] }
  else
    match symbolType c with
    | some ty =>
      let startColumn := s.column
      let s' := { s with position := s.position + 1, column := s.column + 1 }
      { s' with tokens := s'.tokens ++ [mkToken s' ty [c] start s.line startColumn] }
    | none =>
      lexAddError { s with position := s.position + 1, column := s.column + 1 }
        ("Unknown character: ".data ++ [c]) s.line s.column

/-- `tokenize`'s main loop; the fuel `source.length + 1` is sufficient because
every iteration advances the position (`lexStep_progress`). -/
def tokMain : Nat → LexState → LexerOutput
  | 0, s => ⟨s.tokens, s.errors⟩
  | fuel + 1, s =>
    if s.position < s.source.length then tokMain fuel (lexStep s)
    else ⟨s.tokens, s.errors⟩

/-- `Lexer.tokenize` on a fresh lexer for `input`. -/
def tokenize (input : Str) : LexerOutput :=
  tokMain (input.length + 1) ⟨input, 0, 1, 1, [], []⟩

/-! ### AST model (parser/ASTType.ts, feature-complete variant)

Every node interface carries a literal `type` tag from the `ASTKind` const
enum; in this embedding the tag is carried by the Lean type itself, so the tag
field is omitted.  `end` is rendered `endPos`; the `extends` field is rendered
`extendsArr` and the `syntax` field `syntaxDecl` (Lean keywords). -/

structure Position where
  line : Nat
  column : Nat
  start : Nat
  endPos : Nat
deriving DecidableEq, Repr

structure IdentifierNode where
  value : Str
  position : Position
deriving DecidableEq, Repr

structure StringLiteralNode where
  value : Str
  position : Position
deriving DecidableEq, Repr

structure NumberLiteralNode where
  value : Str
  position : Position
deriving DecidableEq, Repr

structure BooleanLiteralNode where
  value : Bool
  position : Position
deriving DecidableEq, Repr

/-- The union `StringLiteralNode | NumberLiteralNode | BooleanLiteralNode`
used for option and field-option values. -/
inductive OptionValue where
  | str (s : StringLiteralNode)
  | num (n : NumberLiteralNode)
  | bool (b : BooleanLiteralNode)
deriving DecidableEq, Repr

structure OptionNode where
  name : IdentifierNode
  value : OptionValue
  position : Position
deriving DecidableEq, Repr

/-- `ToNode`; its `end` field is rendered `endNode`. -/
structure ToNode where
  start : NumberLiteralNode
  endNode : NumberLiteralNode
  position : Position
deriving DecidableEq, Repr

/-- The union `NumberLiteralNode | StringLiteralNode | ToNode` of reserved ranges. -/
inductive ReservedRange where
  | num (n : NumberLiteralNode)
  | str (s : StringLiteralNode)
  | toR (t : ToNode)
deriving DecidableEq, Repr

structure ReservedNode where
  ranges : List ReservedRange
  position : Position
deriving DecidableEq, Repr

structure FieldTypeNode where
  name : Str
  arguments : List IdentifierNode
  position : Position
deriving DecidableEq, Repr

/-- `FiledLabelNode` (source spelling kept).  The source types `value` as the
union `'optional' | 'required' | 'repeated'` but fills it by a plain cast of
the token's text, so it is embedded as the text. -/
structure FiledLabelNode where
  value : Str
  position : Position
deriving DecidableEq, Repr

structure FieldOptionNode where
  name : IdentifierNode
  value : OptionValue
  position : Position
deriving DecidableEq, Repr

structure FieldNode where
  name : IdentifierNode
  fieldType : FieldTypeNode
  fieldNumber : NumberLiteralNode
  label : Option FiledLabelNode
  options : List FieldOptionNode
  position : Position
deriving DecidableEq, Repr

structure OneofNode where
  name : IdentifierNode
  fields : List FieldNode
  position : Position
deriving DecidableEq, Repr

structure EnumFieldNode where
  name : IdentifierNode
  value : NumberLiteralNode
  options : List FieldOptionNode
  position : Position
deriving DecidableEq, Repr

structure EnumNode where
  name : IdentifierNode
  fields : List EnumFieldNode
  reserved : List ReservedNode
  options : List OptionNode
  position : Position
deriving DecidableEq, Repr

/-- The union `ToNode | NumberLiteralNode` of extension ranges. -/
inductive ExtRange where
  | toR (t : ToNode)
  | num (n : NumberLiteralNode)
deriving DecidableEq, Repr

structure ExtensionsNode where
  ranges : List ExtRange
  position : Position
deriving DecidableEq, Repr

structure ExtendNode where
  name : IdentifierNode
  fields : List FieldNode
  position : Position
deriving DecidableEq, Repr

/-- `MessageNode` is recursive (nested messages), hence an inductive with
projections below, field order as in the source interface. -/
inductive MessageNode where
  | mk (name : IdentifierNode) (fields : List FieldNode) (oneofs : List OneofNode)
       (enums : List EnumNode) (extensions : Option ExtensionsNode)
       (extendsArr : List ExtendNode) (reserved : List ReservedNode)
       (messages : List MessageNode) (position : Position)

def MessageNode.name : MessageNode → IdentifierNode
  | .mk n _ _ _ _ _ _ _ _ => n

def MessageNode.fields : MessageNode → List FieldNode
  | .mk _ f _ _ _ _ _ _ _ => f

def MessageNode.oneofs : MessageNode → List OneofNode
  | .mk _ _ o _ _ _ _ _ _ => o

def MessageNode.enums : MessageNode → List EnumNode
  | .mk _ _ _ e _ _ _ _ _ => e

def MessageNode.extensions : MessageNode → Option ExtensionsNode
  | .mk _ _ _ _ x _ _ _ _ => x

def MessageNode.extendsArr : MessageNode → List ExtendNode
  | .mk _ _ _ _ _ x _ _ _ => x

def MessageNode.reserved : MessageNode → List ReservedNode
  | .mk _ _ _ _ _ _ r _ _ => r

def MessageNode.messages : MessageNode → List MessageNode
  | .mk _ _ _ _ _ _ _ m _ => m

def MessageNode.position : MessageNode → Position
  | .mk _ _ _ _ _ _ _ _ p => p

structure RpcMethodNode where
  name : IdentifierNode
  inputType : IdentifierNode
  outputType : IdentifierNode
  position : Position
deriving DecidableEq, Repr

structure ServiceNode where
  name : IdentifierNode
  methods : List RpcMethodNode
  position : Position
deriving DecidableEq, Repr

structure ImportNode where
  publicKeyword : Str
  path : StringLiteralNode
  position : Position
deriving DecidableEq, Repr

structure PackageNode where
  name : IdentifierNode
  position : Position
deriving DecidableEq, Repr

/-- `SyntaxNode` of the source (renamed: Lean keyword). -/
structure SyntaxDeclNode where
  version : StringLiteralNode
  position : Position
deriving DecidableEq, Repr

structure ProtoFileNode where
  syntaxDecl : Option SyntaxDeclNode
  package : Option PackageNode
  imports : List ImportNode
  options : List OptionNode
  enums : List EnumNode
  extendsArr : List ExtendNode
  messages : List MessageNode
  services : List ServiceNode
  position : Position

structure ParserError where
  message : Str
  position : Position
  expected : Option (List TokenType)
deriving DecidableEq, Repr

structure ParserOutput where
  ast : Option ProtoFileNode
  errors : List ParserError

/-! ### Parser helpers (parser/helper.ts) -/

/-- `/^[a-zA-Z_][a-zA-Z0-9_]*$/.test(name)`. -/
def isValidIdentifier : Str → Bool
  | [] => false
  | c :: cs => isIdentifierStartC c ∧ cs.all isIdentifierCharC

def isLabelToken (t : Token) : Bool :=
  t.type = .OPTIONAL ∨ t.type = .REQUIRED ∨ t.type = .REPEATED

/-! ### Parser state and primitives (Parser.ts, feature-complete class) -/

def EOF_TOKEN : Token := { type := .EOF, value := [], line := 0, column := 0, start := 0, endPos := 0 }

structure PState where
  tokens : List Token
  position : Nat
  errors : List ParserError
deriving DecidableEq, Repr

/-- `_previous()`. -/
def pPrev (s : PState) : Token :=
  if s.position ≤ 0 then EOF_TOKEN else s.tokens.getD (s.position - 1) EOF_TOKEN

/-- `_current()`. -/
def pCur (s : PState) : Token :=
  if s.position ≥ s.tokens.length then EOF_TOKEN else s.tokens.getD s.position EOF_TOKEN

def nextEffectAux : List Token → Nat → Token
  | [], _ => EOF_TOKEN
  | t :: ts, c =>
    if t.type ≠ TokenType.COMMENT then
      if c ≤ 1 then t else nextEffectAux ts (c - 1)
    else nextEffectAux ts c

/-- `_nextEffect(count)`: the count-th non-comment token strictly after the cursor. -/
def nextEffect (s : PState) (count : Nat) : Token :=
  nextEffectAux (s.tokens.drop (s.position + 1)) count

/-- `_advance()`: bumps the cursor unless already at the end, returns `_previous()`. -/
def pAdvance (s : PState) : Token × PState :=
  let s' := if s.position < s.tokens.length then { s with position := s.position + 1 } else s
  (pPrev s', s')

/-- `_check(type)`. -/
def pCheck (s : PState) (ty : TokenType) : Bool :=
  if s.position ≥ s.tokens.length then false else (pCur s).type = ty

def posOfToken (t : Token) : Position :=
  { line := t.line, column := t.column, start := t.start, endPos := t.endPos }

/-- `_addError(message, expected?)`. -/
def pAddError (s : PState) (message : Str) (expected : Option (List TokenType)) : PState :=
  { s with errors := s.errors ++ [{ message, position := posOfToken (pCur s), expected }] }

/-- `_expect(type, message)`: advances past a matching token, otherwise records
the error (with the expected kind) and returns the unconsumed current token. -/
def pExpect (s : PState) (ty : TokenType) (message : Str) : Token × PState :=
  if pCheck s ty then pAdvance s
  else (pCur s, pAddError s message (some [ty]))

/-- `_expectIdentifier(message)`: consumes the current token when its text is a
valid identifier (whatever its kind), otherwise records the error. -/
def pExpectIdentifier (s : PState) (message : Str) : Token × PState :=
  if isValidIdentifier (pCur s).value then
    let s' := { s with position := s.position + 1 }
    (pPrev s', s')
  else (pCur s, pAddError s message (some [.IDENTIFIER]))

/-- `_match(t)` with a single candidate kind. -/
def pMatch1 (s : PState) (ty : TokenType) : Bool × PState :=
  if pCheck s ty then (true, (pAdvance s).2) else (false, s)

/-- `_match(t₁, t₂)` with two candidate kinds. -/
def pMatch2 (s : PState) (ty1 ty2 : TokenType) : Bool × PState :=
  if pCheck s ty1 then (true, (pAdvance s).2)
  else if pCheck s ty2 then (true, (pAdvance s).2)
  else (false, s)

/-- `_createPosition(start, end, startToken)`. -/
def mkPos (start endP : Nat) (startToken : Token) : Position :=
  { line := startToken.line, column := startToken.column, start, endPos := endP }

/-- Fuel exhaustion / the `tokens[-1]` out-of-bounds fault of `parse`. -/
inductive PStuck where
  | fuelOut
  | indexOutOfBounds
deriving DecidableEq, Repr

/-! ### Straight-line productions (no loops, hence no fuel) -/

/-- `_parseStringLiteral`. -/
def parseStringLitU (s : PState) (message : Str) : StringLiteralNode × PState :=
  let r := pExpect s .STRING_LITERAL message
  ({ value := r.1.value, position := mkPos r.1.start r.1.endPos r.1 }, r.2)

/-- `_parseNumberLiteral`. -/
def parseNumberLitU (s : PState) (message : Str) : NumberLiteralNode × PState :=
  let r := pExpect s .NUMBER_LITERAL message
  ({ value := r.1.value, position := mkPos r.1.start r.1.endPos r.1 }, r.2)

/-- `_parseBooleanLiteral`. -/
def parseBooleanLitU (s : PState) (message : Str) : BooleanLiteralNode × PState :=
  let startToken := pCur s
  let m := pMatch2 s .TRUE .FALSE
  let s' := if m.1 then m.2 else pAddError m.2 message (some [.TRUE, .FALSE])
  ({ value := startToken.value == "true".data,
     position := mkPos startToken.start startToken.endPos startToken }, s')

/-- `_parseIdentifier` (note the second, `expected`-less error when the token
text is not a valid identifier). -/
def parseIdentifierU (s : PState) (message : Str) : IdentifierNode × PState :=
  let r := pExpectIdentifier s message
  let s2 := if isValidIdentifier r.1.value then r.2 else pAddError r.2 message none
  ({ value := r.1.value, position := mkPos r.1.start r.1.endPos r.1 }, s2)

/-- `_parseLabel`: the cursor is bumped unconditionally. -/
def parseLabelU (s : PState) : FiledLabelNode × PState :=
  let startToken := pCur s
  let s1 := if isLabelToken startToken then s
            else pAddError s "Expect (optional, required, repeated) label token".data none
  let s2 := { s1 with position := s1.position + 1 }
  ({ value := startToken.value, position := mkPos startToken.start startToken.endPos startToken }, s2)

/-- `_parseSyntax` — its node's `end` is `startToken.end`, the end of the
`syntax` keyword itself. -/
def parseSyntaxDeclU (s : PState) : SyntaxDeclNode × PState :=
  let startToken := pCur s
  let s1 := (pExpect s .SYNTAX_KW "Expect \"syntax\" keyword".data).2
  let s2 := (pExpect s1 .EQUAL "Expect \"=\" after syntax keyword".data).2
  let r3 := parseStringLitU s2 "Expect syntax version string after \"=\"".data
  let s4 := (pExpect r3.2 .SEMICOLON "Expect \";\" after syntax version".data).2
  ({ version := r3.1, position := mkPos startToken.start startToken.endPos startToken }, s4)

/-- `_parseImport` — node `end` is `startToken.end`. -/
def parseImportU (s : PState) : ImportNode × PState :=
  let startToken := pCur s
  let s1 := (pExpect s .IMPORT "Expect \"import\" keyword".data).2
  let m := pMatch1 s1 .PUBLIC
  let publicKeyword : Str := if m.1 then "public".data else []
  let r := parseStringLitU m.2 "Expect import path after \"import\" keyword".data
  let s3 := (pExpect r.2 .SEMICOLON "Expect \";\" after import path".data).2
  ({ publicKeyword, path := r.1,
     position := mkPos startToken.start startToken.endPos startToken }, s3)

/-- `_parseRpcMethod`. -/
def parseRpcMethodU (s : PState) : RpcMethodNode × PState :=
  let startToken := pCur s
  let s1 := (pExpect s .RPC "Expect \"rpc\" keyword".data).2
  let rn := parseIdentifierU s1 "Expect rpc method name after \"rpc\" keyword".data
  let s2 := (pExpect rn.2 .L_PARENTHESES "Expect \"(\" after rpc method name".data).2
  let ri := parseIdentifierU s2 "Expect request type after \"(\"".data
  let s3 := (pExpect ri.2 .R_PARENTHESES "Expect \")\" after request type".data).2
  let s4 := (pExpect s3 .RETURNS "Expect \"returns\" keyword".data).2
  let s5 := (pExpect s4 .L_PARENTHESES "Expect \"(\" after \"returns\" keyword".data).2
  let ro := parseIdentifierU s5 "Expect response type after \"returns\" keyword".data
  let s6 := (pExpect ro.2 .R_PARENTHESES "Expect \")\" after response type".data).2
  let s7 := (pExpect s6 .SEMICOLON "Expect \";\" after rpc method".data).2
  ({ name := rn.1, inputType := ri.1, outputType := ro.1,
     position := mkPos startToken.start (pPrev s7).endPos startToken }, s7)

/-! ### Fueled productions and recovery loops

Each function consumes one unit of fuel per call and reports exhaustion as
`PStuck.fuelOut`; with ample fuel the behaviour is that of the source, and a
computation equal to `.error .fuelOut` for EVERY fuel is one that never
returns (see the theorems on C5). -/

/-- The `while (this._match(TokenType.DOT)) { ... }` suffix loop of
`_parseQualifiedIdentifier` and `_parseOptionName`, accumulating `.части`
segments onto `name`. -/
def dotLoopF : Nat → PState → Str → Except PStuck (Str × PState)
  | 0, _, _ => .error .fuelOut
  | fuel + 1, s, name =>
    let m := pMatch1 s .DOT
    if m.1 then
      let r := pExpectIdentifier m.2 "Expect identifier after \".\"".data
      dotLoopF fuel r.2 (name ++ '.' :: r.1.value)
    else .ok (name, m.2)

/-- `_parseQualifiedIdentifier`. -/
def parseQualifiedIdentifierF : Nat → PState → Str → Except PStuck (IdentifierNode × PState)
  | 0, _, _ => .error .fuelOut
  | fuel + 1, s, message =>
    let r := pExpectIdentifier s message
    Except.bind (dotLoopF fuel r.2 r.1.value) fun (name, s2) =>
      .ok ({ value := name, position := mkPos r.1.start (pPrev s2).endPos r.1 }, s2)

/-- `_parseOptionName`: parenthesized extension form or plain dotted name,
plus trailing dotted segments. -/
def parseOptionNameF : Nat → PState → Except PStuck (IdentifierNode × PState)
  | 0, _ => .error .fuelOut
  | fuel + 1, s =>
    let startToken := pCur s
    let m := pMatch1 s .L_PARENTHESES
    if m.1 then
      let r := pExpectIdentifier m.2 "Expect option name after \"(\"".data
      Except.bind (dotLoopF fuel r.2 ('(' :: r.1.value)) fun (nm, s2) =>
        let nm2 := nm ++ [')']
        let s3 := (pExpect s2 .R_PARENTHESES "Expect \")\" after option name".data).2
        Except.bind (dotLoopF fuel s3 nm2) fun (nm3, s4) =>
          .ok ({ value := nm3, position := mkPos startToken.start (pPrev s4).endPos startToken }, s4)
    else
      let r := pExpectIdentifier m.2 "Expect option name after \"option\" keyword".data
      Except.bind (dotLoopF fuel r.2 r.1.value) fun (nm3, s4) =>
        .ok ({ value := nm3, position := mkPos startToken.start (pPrev s4).endPos startToken }, s4)

/-- The value-accepting `if/else if` chain shared verbatim by `_parseOption`
and the `_parseFieldOptions` body: a string / number / boolean literal is
parsed as the value; anything else records an error and yields the placeholder
empty string-literal node spanning `startToken`. -/
def parseOptionValue (s : PState) (startToken : Token) : OptionValue × PState :=
  if pCheck s .STRING_LITERAL then
    let r := parseStringLitU s "Expect option value after \"=\"".data
    (.str r.1, r.2)
  else if pCheck s .NUMBER_LITERAL then
    let r := parseNumberLitU s "Expect option value after \"=\"".data
    (.num r.1, r.2)
  else if pCheck s .TRUE ∨ pCheck s .FALSE then
    let r := parseBooleanLitU s "Expect option value after \"=\"".data
    (.bool r.1, r.2)
  else
    (.str { value := [], position := mkPos startToken.start startToken.endPos startToken },
     pAddError s "Expect option (string, number, or boolean) value after \"=\"".data none)

/-- `_parseOption` — on a value that is not a string, number or boolean
literal, an error is recorded AND a placeholder empty string-literal node
(spanning the `option` keyword token) is used as the value; the node's `end`
is `startToken.end`. -/
def parseOptionF : Nat → PState → Except PStuck (OptionNode × PState)
  | 0, _ => .error .fuelOut
  | fuel + 1, s =>
    let startToken := pCur s
    let s1 := (pExpect s .OPTION "Expect \"option\" keyword".data).2
    Except.bind (parseOptionNameF fuel s1) fun (name, s2) =>
      let s3 := (pExpect s2 .EQUAL "Expect \"=\" after option name".data).2
      let rv := parseOptionValue s3 startToken
      let s5 := (pExpect rv.2 .SEMICOLON "Expect \";\" after option value".data).2
      .ok ({ name, value := rv.1,
             position := mkPos startToken.start startToken.endPos startToken }, s5)

/-- The do-while body of `_parseFieldOptions` (same placeholder behaviour for
a bad value as `_parseOption`). -/
def foLoopF : Nat → PState → List FieldOptionNode → Except PStuck (List FieldOptionNode × PState)
  | 0, _, _ => .error .fuelOut
  | fuel + 1, s, options =>
    let startToken := pCur s
    let rn := parseIdentifierU s "Expect option name".data
    let s1 := (pExpect rn.2 .EQUAL "Expect \"=\" after option name".data).2
    let rv := parseOptionValue s1 startToken
    let options' := options ++
      [{ name := rn.1, value := rv.1,
         position := mkPos startToken.start (pPrev rv.2).endPos startToken }]
    let m := pMatch1 rv.2 .COMMA
    if m.1 then foLoopF fuel m.2 options' else .ok (options', m.2)

/-- `_parseFieldOptions`: `[]`-delimited comma-separated list; absent when the
current token is not `[`. -/
def parseFieldOptionsF : Nat → PState → Except PStuck (List FieldOptionNode × PState)
  | 0, _ => .error .fuelOut
  | fuel + 1, s =>
    if pCheck s .LBRACKET then
      let s1 := (pAdvance s).2
      Except.bind (foLoopF fuel s1 []) fun (options, s2) =>
        let s3 := (pExpect s2 .RBRACKET "Expect \"]\" after field options".data).2
        .ok (options, s3)
    else .ok ([], s)

/-- The do-while of `_parseFieldType`'s parenthesized argument list. -/
def argsLoopF : Nat → PState → List IdentifierNode → Except PStuck (List IdentifierNode × PState)
  | 0, _, _ => .error .fuelOut
  | fuel + 1, s, args =>
    Except.bind (parseQualifiedIdentifierF fuel s "Expect field type argument".data) fun (a, s1) =>
      let m := pMatch1 s1 .COMMA
      if m.1 then argsLoopF fuel m.2 (args ++ [a]) else .ok (args ++ [a], m.2)

/-- `_parseFieldType`. -/
def parseFieldTypeF : Nat → PState → Except PStuck (FieldTypeNode × PState)
  | 0, _ => .error .fuelOut
  | fuel + 1, s =>
    let startToken := pCur s
    Except.bind (parseQualifiedIdentifierF fuel s "Expect field type name".data) fun (qid, s1) =>
      let m := pMatch1 s1 .L_PARENTHESES
      if m.1 then
        Except.bind (argsLoopF fuel m.2 []) fun (args, s2) =>
          let s3 := (pExpect s2 .R_PARENTHESES "Expect \")\" after field type arguments".data).2
          .ok ({ name := qid.value, arguments := args,
                 position := mkPos startToken.start (pPrev s3).endPos startToken }, s3)
      else
        .ok ({ name := qid.value, arguments := [],
               position := mkPos startToken.start (pPrev m.2).endPos startToken }, m.2)

/-- `_parseField`. -/
def parseFieldF : Nat → PState → Except PStuck (FieldNode × PState)
  | 0, _ => .error .fuelOut
  | fuel + 1, s =>
    let startToken := pCur s
    let rl : Option FiledLabelNode × PState :=
      if isLabelToken (pCur s) then
        let r := parseLabelU s
        (some r.1, r.2)
      else (none, s)
    Except.bind (parseFieldTypeF fuel rl.2) fun (ft, s2) =>
      let rn := parseIdentifierU s2 "Expect field name".data
      let s3 := (pExpect rn.2 .EQUAL "Expect \"=\" after field name".data).2
      let rnum := parseNumberLitU s3 "Expect field number".data
      Except.bind (parseFieldOptionsF fuel rnum.2) fun (options, s4) =>
        let s5 := (pExpect s4 .SEMICOLON "Expect \";\" after field value".data).2
        .ok ({ name := rn.1, fieldType := ft, fieldNumber := rnum.1, label := rl.1, options,
               position := mkPos startToken.start (pPrev s5).endPos startToken }, s5)

/-- The do-while of `_parseReserved`: the bare-number versus `to`-range choice
inspects the next non-comment token (`_nextEffect`). -/
def rsvLoopF : Nat → PState → List ReservedRange → Except PStuck (List ReservedRange × PState)
  | 0, _, _ => .error .fuelOut
  | fuel + 1, s, ranges =>
    let cont : PState → List ReservedRange → Except PStuck (List ReservedRange × PState) :=
      fun s' rs =>
        let m := pMatch1 s' .COMMA
        if m.1 then rsvLoopF fuel m.2 rs else .ok (rs, m.2)
    if pCheck s .NUMBER_LITERAL then
      if (nextEffect s 1).type = TokenType.TO then
        let toStartToken := pCur s
        let r1 := parseNumberLitU s "Expect number value".data
        let s1 := (pExpect r1.2 .TO "Expect \"to\" keyword after number literal".data).2
        let r2 := parseNumberLitU s1 "Expect number value after \"to\" keyword".data
        cont r2.2 (ranges ++ [.toR
          { start := r1.1, endNode := r2.1,
            position := mkPos toStartToken.start (pPrev r2.2).endPos toStartToken }])
      else
        let r := parseNumberLitU s "Expect (string, number) value after \"reserved\" keyword".data
        cont r.2 (ranges ++ [.num r.1])
    else if pCheck s .STRING_LITERAL then
      let r := parseStringLitU s "Expect (string, number) value after \"reserved\" keyword".data
      cont r.2 (ranges ++ [.str r.1])
    else
      cont (pAddError s ("Unknown token in reserved ranges: ".data ++ (pCur s).value) none) ranges

/-- `_parseReserved`. -/
def parseReservedF : Nat → PState → Except PStuck (ReservedNode × PState)
  | 0, _ => .error .fuelOut
  | fuel + 1, s =>
    let startToken := pCur s
    let s1 := (pExpect s .RESERVED "Expect \"reserved\" keyword".data).2
    Except.bind (rsvLoopF fuel s1 []) fun (ranges, s2) =>
      let s3 := (pExpect s2 .SEMICOLON "Expect \";\" after reserved ranges".data).2
      .ok ({ ranges, position := mkPos startToken.start (pPrev s3).endPos startToken }, s3)

/-- `_parseEnumField` — node `end` is `startToken.end`. -/
def parseEnumFieldF : Nat → PState → Except PStuck (EnumFieldNode × PState)
  | 0, _ => .error .fuelOut
  | fuel + 1, s =>
    let startToken := pCur s
    let rn := parseIdentifierU s "Expect enum field name".data
    let s1 := (pExpect rn.2 .EQUAL "Expect \"=\" after enum field name".data).2
    let rv := parseNumberLitU s1 "Expect enum field value after \"=\"".data
    Except.bind (parseFieldOptionsF fuel rv.2) fun (options, s2) =>
      let s3 := (pExpect s2 .SEMICOLON "Expect \";\" after enum field value".data).2
      .ok ({ name := rn.1, value := rv.1, options,
             position := mkPos startToken.start startToken.endPos startToken }, s3)

/-- The body-scanning loop of `_parseEnum`; the unknown-token branch skips
exactly one token. -/
def enumLoopF : Nat → PState → List EnumFieldNode → List ReservedNode → List OptionNode →
    Except PStuck ((List EnumFieldNode × List ReservedNode × List OptionNode) × PState)
  | 0, _, _, _, _ => .error .fuelOut
  | fuel + 1, s, fields, reserved, options =>
    if ¬pCheck s .RBRACE ∧ s.position < s.tokens.length then
      if isValidIdentifier (pCur s).value ∧ (nextEffect s 1).type = TokenType.EQUAL then
        Except.bind (parseEnumFieldF fuel s) fun (f, s') =>
          enumLoopF fuel s' (fields ++ [f]) reserved options
      else if pCheck s .OPTION then
        Except.bind (parseOptionF fuel s) fun (o, s') =>
          enumLoopF fuel s' fields reserved (options ++ [o])
      else if pCheck s .RESERVED then
        Except.bind (parseReservedF fuel s) fun (r, s') =>
          enumLoopF fuel s' fields (reserved ++ [r]) options
      else
        let s' := pAddError s ("Unknown token in enum: ".data ++ (pCur s).value) none
        enumLoopF fuel { s' with position := s'.position + 1 } fields reserved options
    else .ok ((fields, reserved, options), s)

/-- `_parseEnum` — node `end` is `startToken.end`. -/
def parseEnumF : Nat → PState → Except PStuck (EnumNode × PState)
  | 0, _ => .error .fuelOut
  | fuel + 1, s =>
    let startToken := pCur s
    let s1 := (pExpect s .ENUM "Expect \"enum\" keyword".data).2
    let rn := parseIdentifierU s1 "Expect enum name after \"enum\" keyword".data
    let s2 := (pExpect rn.2 .LBRACE "Expect \"\x7b\" after enum name".data).2
    Except.bind (enumLoopF fuel s2 [] [] []) fun (acc, s3) =>
      let s4 := (pExpect s3 .RBRACE "Expect \"\x7d\" after enum fields".data).2
      .ok ({ name := rn.1, fields := acc.1, reserved := acc.2.1, options := acc.2.2,
             position := mkPos startToken.start startToken.endPos startToken }, s4)

/-- The do-while of `_parseExtensions` (the `to` lookahead precedes any check
that the current token is a number, as in the source). -/
def extLoopF : Nat → PState → List ExtRange → Except PStuck (List ExtRange × PState)
  | 0, _, _ => .error .fuelOut
  | fuel + 1, s, ranges =>
    let cont : PState → List ExtRange → Except PStuck (List ExtRange × PState) :=
      fun s' rs =>
        let m := pMatch1 s' .COMMA
        if m.1 then extLoopF fuel m.2 rs else .ok (rs, m.2)
    if (nextEffect s 1).type = TokenType.TO then
      let toStartToken := pCur s
      let r1 := parseNumberLitU s "Expect number value".data
      let s1 := (pExpect r1.2 .TO "Expect \"to\" keyword after number literal".data).2
      let r2 := parseNumberLitU s1 "Expect number value after \"to\" keyword".data
      cont r2.2 (ranges ++ [.toR
        { start := r1.1, endNode := r2.1,
          position := mkPos toStartToken.start (pPrev r2.2).endPos toStartToken }])
    else
      let r := parseNumberLitU s "Expect extensions range".data
      cont r.2 (ranges ++ [.num r.1])

/-- `_parseExtensions`. -/
def parseExtensionsF : Nat → PState → Except PStuck (ExtensionsNode × PState)
  | 0, _ => .error .fuelOut
  | fuel + 1, s =>
    let startToken := pCur s
    let s1 := (pExpect s .EXTENSIONS "Expect \"extensions\" keyword".data).2
    Except.bind (extLoopF fuel s1 []) fun (ranges, s2) =>
      let s3 := (pExpect s2 .SEMICOLON "Expect \";\" after extensions range".data).2
      .ok ({ ranges, position := mkPos startToken.start (pPrev s3).endPos startToken }, s3)

/-- The body-scanning loop of `_parseOneof`. -/
def oneofLoopF : Nat → PState → List FieldNode → Except PStuck (List FieldNode × PState)
  | 0, _, _ => .error .fuelOut
  | fuel + 1, s, fields =>
    if ¬pCheck s .RBRACE ∧ s.position < s.tokens.length then
      if isIdentifierCharS (pCur s).value then
        Except.bind (parseFieldF fuel s) fun (f, s') => oneofLoopF fuel s' (fields ++ [f])
      else
        let s' := pAddError s ("Unknown token in oneof: ".data ++ (pCur s).value) none
        oneofLoopF fuel { s' with position := s'.position + 1 } fields
    else .ok (fields, s)

/-- `_parseOneof`. -/
def parseOneofF : Nat → PState → Except PStuck (OneofNode × PState)
  | 0, _ => .error .fuelOut
  | fuel + 1, s =>
    let startToken := pCur s
    let s1 := (pExpect s .ONEOF "Expect \"oneof\" keyword".data).2
    let rn := parseIdentifierU s1 "Expect oneof name after \"oneof\" keyword".data
    let s2 := (pExpect rn.2 .LBRACE "Expect \"\x7b\" after oneof name".data).2
    Except.bind (oneofLoopF fuel s2 []) fun (fields, s3) =>
      let s4 := (pExpect s3 .RBRACE "Expect \"\x7d\" after oneof fields".data).2
      .ok ({ name := rn.1, fields,
             position := mkPos startToken.start (pPrev s4).endPos startToken }, s4)

/-- The body-scanning loop of `_parseExtend`. -/
def extendLoopF : Nat → PState → List FieldNode → Except PStuck (List FieldNode × PState)
  | 0, _, _ => .error .fuelOut
  | fuel + 1, s, fields =>
    if ¬pCheck s .RBRACE ∧ s.position < s.tokens.length then
      if isIdentifierCharS (pCur s).value then
        Except.bind (parseFieldF fuel s) fun (f, s') => extendLoopF fuel s' (fields ++ [f])
      else
        let s' := pAddError s ("Unknown token in extend: ".data ++ (pCur s).value) none
        extendLoopF fuel { s' with position := s'.position + 1 } fields
    else .ok (fields, s)

/-- `_parseExtend`. -/
def parseExtendF : Nat → PState → Except PStuck (ExtendNode × PState)
  | 0, _ => .error .fuelOut
  | fuel + 1, s =>
    let startToken := pCur s
    let s1 := (pExpect s .EXTEND "Expect \"extend\" keyword".data).2
    let rn := parseIdentifierU s1 "Expect extend name after \"extend\" keyword".data
    let s2 := (pExpect rn.2 .LBRACE "Expect \"\x7b\" after extend name".data).2
    Except.bind (extendLoopF fuel s2 []) fun (fields, s3) =>
      let s4 := (pExpect s3 .RBRACE "Expect \"\x7d\" after extend fields".data).2
      .ok ({ name := rn.1, fields,
             position := mkPos startToken.start (pPrev s4).endPos startToken }, s4)

/-- The body-scanning loop of `_parseService`. -/
def serviceLoopF : Nat → PState → List RpcMethodNode → Except PStuck (List RpcMethodNode × PState)
  | 0, _, _ => .error .fuelOut
  | fuel + 1, s, methods =>
    if ¬pCheck s .RBRACE ∧ s.position < s.tokens.length then
      if isIdentifierCharS (pCur s).value then
        let r := parseRpcMethodU s
        serviceLoopF fuel r.2 (methods ++ [r.1])
      else
        let s' := pAddError s ("Unknown token in service: ".data ++ (pCur s).value) none
        serviceLoopF fuel { s' with position := s'.position + 1 } methods
    else .ok (methods, s)

/-- `_parseService`. -/
def parseServiceF : Nat → PState → Except PStuck (ServiceNode × PState)
  | 0, _ => .error .fuelOut
  | fuel + 1, s =>
    let startToken := pCur s
    let s1 := (pExpect s .SERVICE "Expect \"service\" keyword".data).2
    let rn := parseIdentifierU s1 "Expect service name after \"service\" keyword".data
    let s2 := (pExpect rn.2 .LBRACE "Expect \"\x7b\" after service name".data).2
    Except.bind (serviceLoopF fuel s2 []) fun (methods, s3) =>
      let s4 := (pExpect s3 .RBRACE "Expect \"\x7d\" after service methods".data).2
      .ok ({ name := rn.1, methods,
             position := mkPos startToken.start (pPrev s4).endPos startToken }, s4)

/-- `_parsePackage` — node `end` is `startToken.end`. -/
def parsePackageF : Nat → PState → Except PStuck (PackageNode × PState)
  | 0, _ => .error .fuelOut
  | fuel + 1, s =>
    let startToken := pCur s
    let s1 := (pExpect s .PACKAGE "Expect \"package\" keyword".data).2
    Except.bind (parseQualifiedIdentifierF fuel s1 "Expect package name after \"package\" keyword".data)
      fun (name, s2) =>
        let s3 := (pExpect s2 .SEMICOLON "Expect \";\" after package name".data).2
        .ok ({ name, position := mkPos startToken.start startToken.endPos startToken }, s3)

/-- `_isStatementStart(type)`: the keyword, a name containing an identifier
character, then `{` — all by non-comment lookahead. -/
def isStatementStart (s : PState) (ty : TokenType) : Bool :=
  pCheck s ty ∧ isIdentifierCharS (nextEffect s 1).value ∧ (nextEffect s 2).type = TokenType.LBRACE

/-- Accumulators of `_parseMessage`'s body loop. -/
structure MsgAcc where
  fields : List FieldNode := []
  oneofs : List OneofNode := []
  enums : List EnumNode := []
  extensions : Option ExtensionsNode := none
  extendsArr : List ExtendNode := []
  reserved : List ReservedNode := []
  messages : List MessageNode := []

mutual

/-- `_parseMessage`. -/
def parseMessageF : Nat → PState → Except PStuck (MessageNode × PState)
  | 0, _ => .error .fuelOut
  | fuel + 1, s =>
    let startToken := pCur s
    let s1 := (pExpect s .MESSAGE "Expect \"message\" keyword".data).2
    let rn := parseIdentifierU s1 "Expect message name after \"message\" keyword".data
    let s2 := (pExpect rn.2 .LBRACE "Expect \"\x7b\" after message name".data).2
    Except.bind (messageLoopF fuel s2 {}) fun (acc, s3) =>
      let s4 := (pExpect s3 .RBRACE "Expect \"\x7d\" after message fields".data).2
      .ok (.mk rn.1 acc.fields acc.oneofs acc.enums acc.extensions acc.extendsArr
             acc.reserved acc.messages
             (mkPos startToken.start (pPrev s4).endPos startToken), s4)

/-- The body-scanning loop of `_parseMessage`, with its nested-declaration
versus field disambiguation. -/
def messageLoopF : Nat → PState → MsgAcc → Except PStuck (MsgAcc × PState)
  | 0, _, _ => .error .fuelOut
  | fuel + 1, s, acc =>
    if ¬pCheck s .RBRACE ∧ s.position < s.tokens.length then
      if isStatementStart s .ONEOF then
        Except.bind (parseOneofF fuel s) fun (o, s') =>
          messageLoopF fuel s' { acc with oneofs := acc.oneofs ++ [o] }
      else if isStatementStart s .ENUM then
        Except.bind (parseEnumF fuel s) fun (e, s') =>
          messageLoopF fuel s' { acc with enums := acc.enums ++ [e] }
      else if pCheck s .EXTENSIONS ∧ (nextEffect s 1).type = TokenType.NUMBER_LITERAL then
        Except.bind (parseExtensionsF fuel s) fun (e, s') =>
          messageLoopF fuel s' { acc with extensions := some e }
      else if isStatementStart s .EXTEND then
        Except.bind (parseExtendF fuel s) fun (e, s') =>
          messageLoopF fuel s' { acc with extendsArr := acc.extendsArr ++ [e] }
      else if pCheck s .RESERVED ∧
          ((nextEffect s 1).type = TokenType.STRING_LITERAL ∨
           (nextEffect s 1).type = TokenType.NUMBER_LITERAL) then
        Except.bind (parseReservedF fuel s) fun (r, s') =>
          messageLoopF fuel s' { acc with reserved := acc.reserved ++ [r] }
      else if isStatementStart s .MESSAGE then
        Except.bind (parseMessageF fuel s) fun (m, s') =>
          messageLoopF fuel s' { acc with messages := acc.messages ++ [m] }
      else if isIdentifierCharS (pCur s).value then
        Except.bind (parseFieldF fuel s) fun (f, s') =>
          messageLoopF fuel s' { acc with fields := acc.fields ++ [f] }
      else
        let s' := pAddError s ("Unknown token in message: ".data ++ (pCur s).value) none
        messageLoopF fuel { s' with position := s'.position + 1 } acc
    else .ok (acc, s)

end

/-- The top-level statement loop of `parse`. -/
def topLoopF : Nat → ProtoFileNode → PState → Except PStuck (ProtoFileNode × PState)
  | 0, _, _ => .error .fuelOut
  | fuel + 1, pf, s =>
    if s.position < s.tokens.length then
      if pCheck s .PACKAGE then
        Except.bind (parsePackageF fuel s) fun (p, s') =>
          topLoopF fuel { pf with package := some p } s'
      else if pCheck s .IMPORT then
        let r := parseImportU s
        topLoopF fuel { pf with imports := pf.imports ++ [r.1] } r.2
      else if pCheck s .OPTION then
        Except.bind (parseOptionF fuel s) fun (o, s') =>
          topLoopF fuel { pf with options := pf.options ++ [o] } s'
      else if pCheck s .ENUM then
        Except.bind (parseEnumF fuel s) fun (e, s') =>
          topLoopF fuel { pf with enums := pf.enums ++ [e] } s'
      else if pCheck s .EXTEND then
        Except.bind (parseExtendF fuel s) fun (e, s') =>
          topLoopF fuel { pf with extendsArr := pf.extendsArr ++ [e] } s'
      else if pCheck s .MESSAGE then
        Except.bind (parseMessageF fuel s) fun (m, s') =>
          topLoopF fuel { pf with messages := pf.messages ++ [m] } s'
      else if pCheck s .SERVICE then
        Except.bind (parseServiceF fuel s) fun (sv, s') =>
          topLoopF fuel { pf with services := pf.services ++ [sv] } s'
      else
        let s1 := if ¬pCheck s .SEMICOLON then
            pAddError s ("Unknown token in proto file: ".data ++ (pCur s).value) none
          else s
        topLoopF fuel pf { s1 with position := s1.position + 1 }
    else .ok (pf, s)

/-- `Parser.parse`: filters comment tokens, then builds the root node — whose
position construction indexes `tokens[tokens.length - 1]`, faulting
(`PStuck.indexOutOfBounds`) when the filtered token array is empty — then a
leading `syntax` declaration, then the top-level statement loop. -/
def parseFuel (fuel : Nat) (tokens0 : List Token) : Except PStuck ParserOutput :=
  let tokens := tokens0.filter (fun t => t.type != TokenType.COMMENT)
  match tokens.getLast? with
  | none => .error .indexOutOfBounds
  | some lastTok =>
    let firstTok := tokens.getD 0 EOF_TOKEN
    let pf0 : ProtoFileNode :=
      { syntaxDecl := none, package := none, imports := [], options := [], enums := [],
        extendsArr := [], messages := [], services := [],
        position := mkPos 0 lastTok.endPos firstTok }
    let s0 : PState := { tokens, position := 0, errors := [] }
    let r1 : ProtoFileNode × PState :=
      if pCheck s0 .SYNTAX_KW then
        let r := parseSyntaxDeclU s0
        ({ pf0 with syntaxDecl := some r.1 }, r.2)
      else (pf0, s0)
    Except.bind (topLoopF fuel r1.1 r1.2) fun (pf2, s2) =>
      .ok { ast := some pf2, errors := s2.errors }

/-! ### Generator helpers (compiler/helper.ts) -/

/-- `getWhitespace(count)`. -/
def getWhitespace (count : Nat) : Str := List.replicate count ' '

/-- `transformInternalType`: the closed scalar mapping used for generic-style
type arguments. -/
def transformInternalType (type : Str) : Str :=
  if type = "double".data ∨ type = "float".data ∨ type = "int32".data ∨ type = "int64".data
      ∨ type = "uint32".data ∨ type = "uint64".data ∨ type = "sint32".data ∨ type = "sint64".data
      ∨ type = "fixed32".data ∨ type = "fixed64".data ∨ type = "sfixed32".data
      ∨ type = "sfixed64".data then
    "number".data
  else if type = "bool".data then "boolean".data
  else if type = "string".data then "string".data
  else if type = "bytes".data then "Uint8Array".data
  else if type = "map".data then "Map".data
  else type

/-- `transformFieldType`: member-type emission for one field — optionality
marker via the `?: `/`: ` member separator, `[]` suffix for `repeated`, and
the closed scalar mapping with generic-argument support. -/
def transformFieldType (field : FieldNode) : Str :=
  let fieldType := field.fieldType
  let pfx : Str := if field.label.map (·.value) = some "optional".data then "?: ".data else ": ".data
  let suffix : Str := if field.label.map (·.value) = some "repeated".data then "[]".data else []
  if fieldType.name = "double".data ∨ fieldType.name = "float".data
      ∨ fieldType.name = "int32".data ∨ fieldType.name = "int64".data
      ∨ fieldType.name = "uint32".data ∨ fieldType.name = "uint64".data
      ∨ fieldType.name = "sint32".data ∨ fieldType.name = "sint64".data
      ∨ fieldType.name = "fixed32".data ∨ fieldType.name = "fixed64".data
      ∨ fieldType.name = "sfixed32".data ∨ fieldType.name = "sfixed64".data then
    pfx ++ "number".data ++ suffix
  else if fieldType.name = "bool".data then pfx ++ "boolean".data ++ suffix
  else if fieldType.name = "string".data then pfx ++ "string".data ++ suffix
  else if fieldType.name = "bytes".data then pfx ++ "Uint8Array".data ++ suffix
  else if fieldType.arguments.length > 0 then
    let nm : Str := if fieldType.name = "map".data then "Map".data else fieldType.name
    let args := fieldType.arguments.map (fun item => transformInternalType item.value)
    pfx ++ nm ++ "<".data ++ List.intercalate ", ".data args ++ ">".data ++ suffix
  else pfx ++ fieldType.name ++ suffix

/-! ### Generator and orchestrator -/

/-- Generator configuration (compiler/Generate.ts interface as re-stated by
the spec §4.3 and the README): spaces per indentation level, and the import
path resolver. -/
structure GenerateOptions where
  indentSize : Nat := 2
  pathResolver : Str → Str := id

def concatAll (xs : List Str) : Str := xs.foldr (fun a b => a ++ b) []

/-- Modelled from the spec: the `Generate` class (compiler/Generate.ts) is not
under src/.  §4.3: one member line per field — member name = field name, type
via the mapping of `transformFieldType` (which IS under src/). -/
def genField (ind : Str) (f : FieldNode) : Str :=
  ind ++ f.name.value ++ transformFieldType f ++ ";\n".data

/-- Modelled from the spec: enum emission of the missing `Generate` class —
a nested declaration with one line per enum field. -/
def genEnum (opts : GenerateOptions) (depth : Nat) (e : EnumNode) : Str :=
  let ind := getWhitespace (depth * opts.indentSize)
  let ind1 := getWhitespace ((depth + 1) * opts.indentSize)
  ind ++ "enum ".data ++ e.name.value ++ " \x7b\n".data
    ++ concatAll (e.fields.map (fun f => ind1 ++ f.name.value ++ " = ".data ++ f.value.value ++ ",\n".data))
    ++ ind ++ "\x7d\n".data

/-- Modelled from the spec: message emission of the missing `Generate` class —
a declaration block with one member line per field, and nested enums/messages
emitted as nested declarations; indentation is depth × `indentSize` (§4.3). -/
def genMessage : Nat → GenerateOptions → Nat → MessageNode → Str
  | 0, _, _, _ => []
  | fuel + 1, opts, depth, m =>
    let ind := getWhitespace (depth * opts.indentSize)
    let ind1 := getWhitespace ((depth + 1) * opts.indentSize)
    ind ++ "interface ".data ++ m.name.value ++ " \x7b\n".data
      ++ concatAll (m.fields.map (genField ind1))
      ++ concatAll (m.enums.map (genEnum opts (depth + 1)))
      ++ concatAll (m.messages.map (genMessage fuel opts (depth + 1)))
      ++ ind ++ "\x7d\n".data

/-- Modelled from the spec: `Generate.generate` — a pure, total, depth-first
walk of the file root (§4.3: "no errors — a syntactically valid AST always
generates"). -/
def generate (fuel : Nat) (ast : ProtoFileNode) (opts : GenerateOptions) : Str :=
  concatAll (ast.enums.map (genEnum opts 0)) ++ concatAll (ast.messages.map (genMessage fuel opts 0))

/-- The position record of the `CompilerError` interface of compile.ts; its
`start`/`end` are JavaScript numbers that, for lexical errors, actually hold
`undefined` and `NaN` (see `mapLexError`). -/
structure JsPosition where
  line : Nat
  column : Nat
  start : JsNum
  endPos : JsNum
deriving DecidableEq, Repr

/-- The error records `compile` hands to callers; syntax errors keep their
`expected` annotation, lexical errors have none. -/
structure CompilerError where
  message : Str
  position : JsPosition
  expected : Option (List TokenType)
deriving DecidableEq, Repr

structure CompilerOutput where
  code : Str
  errors : List CompilerError
deriving DecidableEq, Repr

/-- The lexical-error mapping inside `compile`: the source reads
`error.position` — a property `LexerError` does not have — so `start` is
`undefined` and `end` is `undefined + 1`, i.e. `NaN`. -/
def mapLexError (e : LexError) : CompilerError :=
  { message := e.message,
    position := { line := e.line, column := e.column, start := .undef, endPos := JsNum.add1 .undef },
    expected := none }

/-- Syntax errors are passed through to the caller unchanged. -/
def mapParserError (e : ParserError) : CompilerError :=
  { message := e.message,
    position := { line := e.position.line, column := e.position.column,
                  start := .num e.position.start, endPos := .num e.position.endPos },
    expected := e.expected }

/-- `compile(input, options)` (compile.ts, the `CompilerError`-mapping
variant): lexical errors short-circuit before parsing; parser errors (or a
null root) short-circuit before generation; otherwise the generated text with
no errors. -/
def compileFuel (fuel : Nat) (input : Str) (opts : GenerateOptions) : Except PStuck CompilerOutput :=
  let lexerOutput := tokenize input
  if lexerOutput.errors.length > 0 then
    .ok { code := [], errors := lexerOutput.errors.map mapLexError }
  else
    Except.bind (parseFuel fuel lexerOutput.tokens) fun pOut =>
      if pOut.errors.length > 0 ∨ pOut.ast.isNone then
        .ok { code := [], errors := pOut.errors.map mapParserError }
      else
        match pOut.ast with
        | some ast => .ok { code := generate fuel ast opts, errors := [] }
        | none => .ok { code := [], errors := [] }

/-! ### Claim-statement vocabulary -/

/-- The twelve numeric scalar keywords of the mapping table. -/
def numericKeywords : List Str :=
  ["double".data, "float".data, "int32".data, "int64".data, "uint32".data, "uint64".data,
   "sint32".data, "sint64".data, "fixed32".data, "fixed64".data, "sfixed32".data, "sfixed64".data]

/-- The fifteen scalar keywords (numeric + bool + string + bytes). -/
def scalarKeywords : List Str :=
  numericKeywords ++ ["bool".data, "string".data, "bytes".data]

/-- The member separator emitted before the type: the optionality marker `?: `
exactly when the field's label is `optional`. -/
def fieldSep (f : FieldNode) : Str :=
  if f.label.map (·.value) = some "optional".data then "?: ".data else ": ".data

/-- The array-of suffix `[]`, present exactly when the field's label is `repeated`. -/
def fieldSuffix (f : FieldNode) : Str :=
  if f.label.map (·.value) = some "repeated".data then "[]".data else []

theorem intercalate_pair (sep a b : Str) :
    List.intercalate sep [a, b] = a ++ (sep ++ (b ++ [])) := rfl

/-- **C2.** For every field node, the emitted member type is the fixed scalar
mapping — the twelve numeric keywords to `number`, `bool` to `boolean`,
`string` to `string`, `bytes` to `Uint8Array`, `map` with declared key/value
arguments to `Map<K, V>` with the arguments resolved through
`transformInternalType`, and any other (argument-less) type name literally —
prefixed by `?: ` iff the label is `optional` (else `: `) and suffixed by `[]`
iff the label is `repeated`. -/
theorem c2_scalar_type_mapping (f : FieldNode) :
    (f.fieldType.name ∈ numericKeywords →
      transformFieldType f = fieldSep f ++ "number".data ++ fieldSuffix f)
    ∧ (f.fieldType.name = "bool".data →
      transformFieldType f = fieldSep f ++ "boolean".data ++ fieldSuffix f)
    ∧ (f.fieldType.name = "string".data →
      transformFieldType f = fieldSep f ++ "string".data ++ fieldSuffix f)
    ∧ (f.fieldType.name = "bytes".data →
      transformFieldType f = fieldSep f ++ "Uint8Array".data ++ fieldSuffix f)
    ∧ (∀ k v, f.fieldType.name = "map".data → f.fieldType.arguments = [k, v] →
      transformFieldType f = fieldSep f ++ "Map<".data ++ transformInternalType k.value
        ++ ", ".data ++ transformInternalType v.value ++ ">".data ++ fieldSuffix f)
    ∧ (f.fieldType.name ∉ scalarKeywords → f.fieldType.arguments = [] →
      transformFieldType f = fieldSep f ++ f.fieldType.name ++ fieldSuffix f) := by
  obtain ⟨nm, ⟨tn, ta, tp⟩, fn, lb, op, ps⟩ := f
  refine ⟨?_, ?_, ?_, ?_, ?_, ?_⟩
  · intro h
    simp only [numericKeywords, List.mem_cons, List.not_mem_nil, or_false] at h
    rcases h with h|h|h|h|h|h|h|h|h|h|h|h <;> (subst h; rfl)
  · intro h; subst h; rfl
  · intro h; subst h; rfl
  · intro h; subst h; rfl
  · intro k v h harg
    subst h; subst harg
    simp only [transformFieldType, fieldSep, fieldSuffix]
    norm_num
    simp [intercalate_pair, List.append_assoc]
  · intro h harg
    simp only [scalarKeywords, numericKeywords, List.mem_append, List.mem_cons,
      List.not_mem_nil, or_false, not_or] at h
    simp only at harg
    subst harg
    obtain ⟨⟨h1, h2, h3, h4, h5, h6, h7, h8, h9, h10, h11, h12⟩, h13, h14, h15⟩ := h
    simp only [transformFieldType, fieldSep, fieldSuffix]
    simp [h1, h2, h3, h4, h5, h6, h7, h8, h9, h10, h11, h12, h13, h14, h15]

def pos0 : Position := { line := 1, column := 1, start := 0, endPos := 0 }

def c2Fld : FieldNode :=
  { name := { value := "id".data, position := pos0 },
    fieldType := { name := "int32".data, arguments := [], position := pos0 },
    fieldNumber := { value := "2".data, position := pos0 },
    label := some { value := "optional".data, position := pos0 },
    options := [], position := pos0 }

theorem c2_scalar_type_mapping_witness :
    ("int32".data ∈ numericKeywords) ∧
      (transformFieldType c2Fld = fieldSep c2Fld ++ "number".data ++ fieldSuffix c2Fld) :=
  ⟨by decide, (c2_scalar_type_mapping c2Fld).1 (by decide)⟩

/-! ### C3 — position containment -/

/-- The syntax node that `parse` produces for `syntax = "proto3";` — its own
span ends at offset 6 (the end of the `syntax` keyword token) while its
`version` child spans offsets 9–17. -/
def c3SyntaxNode : SyntaxDeclNode :=
  { version := { value := "proto3".data, position := { line := 1, column := 10, start := 9, endPos := 17 } },
    position := { line := 1, column := 1, start := 0, endPos := 6 } }

/-- **C3.** Refuted on the code: for the input `syntax = "proto3";`, the parsed
syntax node's recorded span ends at 6 while its `version` child ends at 17, so
`child.position.end ≤ parent.position.end` fails (the spec's containment
invariant is the intent; `_parseSyntax` — like `_parsePackage`, `_parseImport`,
`_parseOption`, `_parseEnum` and `_parseEnumField` — passes `startToken.end`
instead of `this._previous().end` to `_createPosition`). -/
theorem c3_position_containment_violation :
    parseFuel 50 (tokenize "syntax = \"proto3\";".data).tokens =
      .ok { ast := some { syntaxDecl := some c3SyntaxNode, package := none, imports := [],
                          options := [], enums := [], extendsArr := [], messages := [],
                          services := [],
                          position := { line := 1, column := 1, start := 0, endPos := 18 } },
            errors := [] }
    ∧ c3SyntaxNode.version.position.start = 9
    ∧ c3SyntaxNode.version.position.endPos = 17
    ∧ c3SyntaxNode.position.endPos = 6
    ∧ c3SyntaxNode.position.endPos < c3SyntaxNode.version.position.endPos :=
  ⟨rfl, rfl, rfl, rfl, by decide⟩

/-! ### C4 — the out-of-bounds root-position read on an empty token stream -/

/-- **C4.** For every input whose token stream after comment filtering is
empty, `parse`'s root-position construction indexes `tokens[length - 1]` of an
empty array, so `parse` — and therefore `compile` — does not return a result
record; the fault is reachable from the public entry point. -/
theorem c4_empty_token_stream_faults (fuel : Nat) (input : Str) (opts : GenerateOptions)
    (herr : (tokenize input).errors = [])
    (htok : (tokenize input).tokens.filter (fun t => t.type != TokenType.COMMENT) = []) :
    compileFuel fuel input opts = .error .indexOutOfBounds := by
  simp [compileFuel, parseFuel, herr, htok, Except.bind]

theorem c4_empty_token_stream_faults_witness :
    ((tokenize "".data).errors = []
      ∧ (tokenize "".data).tokens.filter (fun t => t.type != TokenType.COMMENT) = []
      ∧ compileFuel 50 "".data {} = .error .indexOutOfBounds)
    ∧ ((tokenize "// hi".data).errors = []
      ∧ (tokenize "// hi".data).tokens.filter (fun t => t.type != TokenType.COMMENT) = []
      ∧ compileFuel 50 "// hi".data {} = .error .indexOutOfBounds) :=
  ⟨⟨rfl, rfl, c4_empty_token_stream_faults 50 "".data {} rfl rfl⟩,
   ⟨rfl, rfl, c4_empty_token_stream_faults 50 "// hi".data {} rfl rfl⟩⟩

/-! ### C6 — error short-circuiting on the two sample sources -/

def c6InputLiteral : Str := "message M \x7b string ".data

/-- **C6, counterexample.** The input text `message M { string ` — exactly as
written in the claim, with no quote character — is lexically clean: compiling
it yields six syntax errors, not the single lexical "Unterminated string
literal" error the claim asserts. -/
theorem c6_error_short_circuit_counterexample :
    ∃ out, compileFuel 50 c6InputLiteral {} = .ok out
      ∧ out.code = []
      ∧ out.errors.map (·.message) =
          ["Expect field name".data, "Expect field name".data,
           "Expect \"=\" after field name".data, "Expect field number".data,
           "Expect \";\" after field value".data, "Expect \"\x7d\" after message fields".data]
      ∧ out.errors.map (·.message) ≠ ["Unterminated string literal".data] :=
  ⟨_, rfl, rfl, rfl, by decide⟩

def c6InputUnterminated : Str := "message M \x7b string \"".data

def c6InputMissingNumber : Str := "message M \x7b string name = ; \x7d".data

/-- **C6, amended.** With the opening quote actually present —
`message M { string "` — compiling yields an empty code string and exactly one
error, the lexical "Unterminated string literal"; and
`message M { string name = ; }` yields an empty code string and a syntax error
referencing the missing number literal ("Expect field number"). -/
theorem c6_error_short_circuit :
    (∃ out, compileFuel 50 c6InputUnterminated {} = .ok out ∧ out.code = []
      ∧ out.errors.map (·.message) = ["Unterminated string literal".data])
    ∧ (∃ out, compileFuel 50 c6InputMissingNumber {} = .ok out ∧ out.code = []
      ∧ "Expect field number".data ∈ out.errors.map (·.message)) :=
  ⟨⟨_, rfl, rfl, rfl⟩, ⟨_, rfl, rfl, by decide⟩⟩

/-! ### C7 — the error-record shape handed to callers -/

/-- **C7.** Evaluating `compile` at the failing input `@`: the record has the
`{ message, position: { line, column, start, end } }` shape, but — because
`LexerError` records no absolute offset while `compile` reads
`error.position` — `start` is `undefined` and `end` is `undefined + 1 = NaN`,
not the error's source offset plus one. -/
theorem c7_lexical_error_position_undefined :
    compileFuel 50 "@".data {} =
      .ok { code := [],
            errors := [{ message := "Unknown character: @".data,
                         position := { line := 1, column := 1, start := .undef, endPos := .nan },
                         expected := none }] } := rfl

/-! ### C9 — reserved-range parsing -/

/-- Shape digest of a parsed reserved-range entry. -/
inductive RangeShape where
  | bareNum (v : Str)
  | bareStr (v : Str)
  | toRange (a b : Str)
deriving DecidableEq, Repr

def rangeShape : ReservedRange → RangeShape
  | .num n => .bareNum n.value
  | .str s => .bareStr s.value
  | .toR t => .toRange t.start.value t.endNode.value

/-- The parser state on the comment-filtered token stream of
`reserved 2, 15, 9 to 11;`, as `parse` would present it to `_parseReserved`. -/
def c9State : PState :=
  { tokens := (tokenize "reserved 2, 15, 9 to 11;".data).tokens.filter
      (fun t => t.type != TokenType.COMMENT),
    position := 0, errors := [] }

/-- **C9.** `reserved 2, 15, 9 to 11;` parses to exactly three range entries in
order — bare number 2, bare number 15, and a to-range 9–11 — the to-range
versus bare-number choice being made by `nextEffect`, the next-non-comment
lookahead. -/
theorem c9_reserved_ranges :
    ∃ node s', parseReservedF 50 c9State = Except.ok (node, s')
      ∧ s'.errors = []
      ∧ node.ranges.map rangeShape =
          [.bareNum "2".data, .bareNum "15".data, .toRange "9".data "11".data] :=
  ⟨_, _, rfl, rfl, rfl⟩

/-! ### C1 — the compile contract -/

/-- **C1, counterexample.** On the empty input, `compile` does not return a
`{code, errors}` record at all: the lexer reports no errors and no tokens, and
`parse` then faults reading `tokens[-1].end` while building the root node
(`PStuck.indexOutOfBounds`, which no amount of fuel changes). -/
theorem c1_compile_contract_counterexample :
    compileFuel 50 "".data {} = .error .indexOutOfBounds ∧
      (tokenize "".data).errors = [] := ⟨rfl, rfl⟩

/-- **C1, amended.** Whenever `compile` returns a record `{code, errors}` — it
does not for inputs whose comment-filtered token stream is empty, nor when the
parser's recovery loops fail to progress — the record satisfies the contract:
non-empty lexical errors give an empty code and exactly the mapped lexical
errors; otherwise non-empty parser errors (or a missing root) give an empty
code and exactly the parser's errors; otherwise the code is the generated text
and the error list is empty. -/
theorem c1_compile_contract (fuel : Nat) (input : Str) (opts : GenerateOptions)
    (out : CompilerOutput) (h : compileFuel fuel input opts = .ok out) :
    ((tokenize input).errors ≠ []
      ∧ out.code = [] ∧ out.errors = (tokenize input).errors.map mapLexError)
    ∨ ((tokenize input).errors = []
      ∧ ∃ p, parseFuel fuel (tokenize input).tokens = .ok p
        ∧ (((p.errors ≠ [] ∨ p.ast = none)
              ∧ out.code = [] ∧ out.errors = p.errors.map mapParserError)
          ∨ (p.errors = []
              ∧ ∃ a, p.ast = some a ∧ out.code = generate fuel a opts ∧ out.errors = []))) := by
  unfold compileFuel at h
  by_cases he : (tokenize input).errors.length > 0
  · left
    rw [if_pos he] at h
    have hout : out = { code := [], errors := (tokenize input).errors.map mapLexError } :=
      (Except.ok.injEq _ _ ▸ h).symm
    refine ⟨?_, by rw [hout], by rw [hout]⟩
    intro hnil
    rw [hnil] at he
    exact absurd he (by simp)
  · right
    have hnil : (tokenize input).errors = [] := by
      rcases hn : (tokenize input).errors with _ | ⟨a, l⟩
      · rfl
      · exact absurd (by rw [hn]; simp) he
    rw [if_neg he] at h
    rcases hp : parseFuel fuel (tokenize input).tokens with e | p
    · rw [hp] at h; exact absurd h (by simp [Except.bind])
    · rw [hp] at h
      refine ⟨hnil, p, rfl, ?_⟩
      simp only [Except.bind] at h
      by_cases hc : p.errors.length > 0 ∨ p.ast.isNone
      · left
        rw [if_pos hc] at h
        have hout : out = { code := [], errors := p.errors.map mapParserError } :=
          (Except.ok.injEq _ _ ▸ h).symm
        refine ⟨?_, by rw [hout], by rw [hout]⟩
        rcases hc with hc | hc
        · exact Or.inl (by intro hx; rw [hx] at hc; exact absurd hc (by simp))
        · exact Or.inr (Option.isNone_iff_eq_none.mp hc)
      · right
        rw [if_neg hc] at h
        push_neg at hc
        have hperr : p.errors = [] := by simpa using hc.1
        rcases ha : p.ast with _ | a
        · exact absurd (by simp [ha]) hc.2
        · rw [ha] at h
          have hout : out = { code := generate fuel a opts, errors := [] } :=
            (Except.ok.injEq _ _ ▸ h).symm
          exact ⟨hperr, a, rfl, by rw [hout], by rw [hout]⟩

def c1Input : Str := "message M \x7b\x7d".data

theorem c1_compile_contract_witness :
    ∃ out, compileFuel 50 c1Input {} = .ok out ∧
      (((tokenize c1Input).errors ≠ []
          ∧ out.code = [] ∧ out.errors = (tokenize c1Input).errors.map mapLexError)
        ∨ ((tokenize c1Input).errors = []
          ∧ ∃ p, parseFuel 50 (tokenize c1Input).tokens = .ok p
            ∧ (((p.errors ≠ [] ∨ p.ast = none)
                  ∧ out.code = [] ∧ out.errors = p.errors.map mapParserError)
              ∨ (p.errors = []
                  ∧ ∃ a, p.ast = some a ∧ out.code = generate 50 a {} ∧ out.errors = [])))) :=
  ⟨_, rfl, c1_compile_contract 50 c1Input {} _ rfl⟩

/-! ### C10 — option values and field-option values -/

def c10OptTok : Token :=
  { type := .OPTION, value := "option".data, line := 1, column := 1, start := 0, endPos := 6 }

def c10NameTok : Token :=
  { type := .IDENTIFIER, value := "foo".data, line := 1, column := 8, start := 7, endPos := 10 }

def c10EqTok : Token :=
  { type := .EQUAL, value := "=".data, line := 1, column := 12, start := 11, endPos := 12 }

def c10SemiTok : Token :=
  { type := .SEMICOLON, value := ";".data, line := 1, column := 16, start := 15, endPos := 16 }

def c10LbTok : Token :=
  { type := .LBRACKET, value := "[".data, line := 1, column := 1, start := 0, endPos := 1 }

def c10RbTok : Token :=
  { type := .RBRACKET, value := "]".data, line := 1, column := 16, start := 15, endPos := 16 }

/-- `option foo = ⟨t⟩ ;` with an arbitrary value token `t`. -/
def c10OptState (t : Token) : PState :=
  { tokens := [c10OptTok, c10NameTok, c10EqTok, t, c10SemiTok], position := 0, errors := [] }

/-- `[ foo = ⟨t⟩ ]` with an arbitrary field-option value token `t`. -/
def c10FoState (t : Token) : PState :=
  { tokens := [c10LbTok, c10NameTok, c10EqTok, t, c10RbTok], position := 0, errors := [] }

/-- The placeholder value node `_parseOption` attaches on a bad value: an
empty string literal spanning the `option` keyword token. -/
def c10Placeholder : OptionValue :=
  .str { value := [], position := posOfToken c10OptTok }

/-- The placeholder `_parseFieldOptions` attaches: an empty string literal
spanning the option-name token, the `startToken` of the entry. -/
def c10FoPlaceholder : OptionValue :=
  .str { value := [], position := posOfToken c10NameTok }

def c10ValueErrMsg : Str :=
  "Expect option (string, number, or boolean) value after \"=\"".data

/-- The real token stream of `option foo = ;`. -/
def c10CexState : PState :=
  { tokens := (tokenize "option foo = ;".data).tokens, position := 0, errors := [] }

/-- **C10, counterexample.** Parsing `option foo = ;`, whose value token is
acceptable to neither branch, records the syntax error but DOES attach a value
node to the resulting option node: the placeholder empty string literal
spanning the `option` keyword — the claim's "no value node is attached" is
false. -/
theorem c10_option_value_counterexample :
    ∃ nd s', parseOptionF 9 c10CexState = Except.ok (nd, s')
      ∧ nd.value = .str
          { value := [],
            position := { line := 1, column := 1, start := 0, endPos := 6 } }
      ∧ s'.errors.map (·.message) = [c10ValueErrMsg] :=
  ⟨_, _, rfl, rfl, rfl⟩


/-- A value token of the given kind bearing representative literal text. -/
def c10ValText : TokenType → Str
  | .NUMBER_LITERAL => "42".data
  | .TRUE => "true".data
  | .FALSE => "false".data
  | _ => "bar".data

def c10ValPos : Position := { line := 1, column := 14, start := 13, endPos := 18 }

def c10Tok (ty : TokenType) : Token :=
  { type := ty, value := c10ValText ty, line := 1, column := 14, start := 13, endPos := 18 }

/-- **C10, amended.** For every token kind in the value slot of an option
statement or a field-option entry: the value is accepted — parsed as the
corresponding literal node with no error — iff the kind is string literal,
number literal, or one of the boolean keywords `true`/`false`; for every
other kind a syntax error is recorded and a placeholder empty string-literal
value node is attached to the resulting option node. -/
theorem c10_option_value_acceptance (ty : TokenType) :
    (ty = .STRING_LITERAL →
      ∃ nd s', parseOptionF 9 (c10OptState (c10Tok ty)) = Except.ok (nd, s')
        ∧ nd.value = .str { value := "bar".data, position := c10ValPos } ∧ s'.errors = [])
    ∧ (ty = .NUMBER_LITERAL →
      ∃ nd s', parseOptionF 9 (c10OptState (c10Tok ty)) = Except.ok (nd, s')
        ∧ nd.value = .num { value := "42".data, position := c10ValPos } ∧ s'.errors = [])
    ∧ (ty = .TRUE →
      ∃ nd s', parseOptionF 9 (c10OptState (c10Tok ty)) = Except.ok (nd, s')
        ∧ nd.value = .bool { value := true, position := c10ValPos } ∧ s'.errors = [])
    ∧ (ty = .FALSE →
      ∃ nd s', parseOptionF 9 (c10OptState (c10Tok ty)) = Except.ok (nd, s')
        ∧ nd.value = .bool { value := false, position := c10ValPos } ∧ s'.errors = [])
    ∧ (ty ∉ [TokenType.STRING_LITERAL, TokenType.NUMBER_LITERAL,
             TokenType.TRUE, TokenType.FALSE] →
      ∃ nd s', parseOptionF 9 (c10OptState (c10Tok ty)) = Except.ok (nd, s')
        ∧ nd.value = c10Placeholder
        ∧ (s'.errors.map (·.message)).head? = some c10ValueErrMsg)
    ∧ (ty = .STRING_LITERAL →
      ∃ o s', parseFieldOptionsF 9 (c10FoState (c10Tok ty)) = Except.ok ([o], s')
        ∧ o.value = .str { value := "bar".data, position := c10ValPos } ∧ s'.errors = [])
    ∧ (ty = .NUMBER_LITERAL →
      ∃ o s', parseFieldOptionsF 9 (c10FoState (c10Tok ty)) = Except.ok ([o], s')
        ∧ o.value = .num { value := "42".data, position := c10ValPos } ∧ s'.errors = [])
    ∧ (ty = .TRUE →
      ∃ o s', parseFieldOptionsF 9 (c10FoState (c10Tok ty)) = Except.ok ([o], s')
        ∧ o.value = .bool { value := true, position := c10ValPos } ∧ s'.errors = [])
    ∧ (ty = .FALSE →
      ∃ o s', parseFieldOptionsF 9 (c10FoState (c10Tok ty)) = Except.ok ([o], s')
        ∧ o.value = .bool { value := false, position := c10ValPos } ∧ s'.errors = [])
    ∧ (ty ∉ [TokenType.STRING_LITERAL, TokenType.NUMBER_LITERAL,
             TokenType.TRUE, TokenType.FALSE] →
      ∃ os s', parseFieldOptionsF 9 (c10FoState (c10Tok ty)) = Except.ok (os, s')
        ∧ os.head?.map (·.value) = some c10FoPlaceholder
        ∧ (s'.errors.map (·.message)).head? = some c10ValueErrMsg) := by
  refine ⟨?_, ?_, ?_, ?_, ?_, ?_, ?_, ?_, ?_, ?_⟩
  · intro h; subst h; exact ⟨_, _, rfl, rfl, rfl⟩
  · intro h; subst h; exact ⟨_, _, rfl, rfl, rfl⟩
  · intro h; subst h; exact ⟨_, _, rfl, rfl, rfl⟩
  · intro h; subst h; exact ⟨_, _, rfl, rfl, rfl⟩
  · intro h
    cases ty <;> first
      | exact absurd (by decide) h
      | exact ⟨_, _, rfl, rfl, rfl⟩
  · intro h; subst h; exact ⟨_, _, rfl, rfl, rfl⟩
  · intro h; subst h; exact ⟨_, _, rfl, rfl, rfl⟩
  · intro h; subst h; exact ⟨_, _, rfl, rfl, rfl⟩
  · intro h; subst h; exact ⟨_, _, rfl, rfl, rfl⟩
  · intro h
    cases ty <;> first
      | exact absurd (by decide) h
      | exact ⟨_, _, rfl, rfl, rfl⟩

theorem c10_option_value_acceptance_witness :
    ∃ nd s', parseOptionF 9 (c10OptState (c10Tok TokenType.STRING_LITERAL)) = Except.ok (nd, s')
      ∧ nd.value = .str { value := "bar".data, position := c10ValPos } ∧ s'.errors = [] :=
  (c10_option_value_acceptance TokenType.STRING_LITERAL).1 rfl

/-! ### C5 — forward progress / termination -/

def c5Input : Str := "message M \x7b \"a b\" \x7d".data

/-- The comment-filtered token stream of `message M { "a b" }` (checked
against `tokenize` in `c5Tokens_eq`). -/
def c5Tokens : List Token :=
  [{ type := .MESSAGE, value := "message".data, line := 1, column := 1, start := 0, endPos := 7 },
   { type := .IDENTIFIER, value := "M".data, line := 1, column := 9, start := 8, endPos := 9 },
   { type := .LBRACE, value := "\x7b".data, line := 1, column := 11, start := 10, endPos := 11 },
   { type := .STRING_LITERAL, value := "a b".data, line := 1, column := 13, start := 12, endPos := 17 },
   { type := .RBRACE, value := "\x7d".data, line := 1, column := 19, start := 18, endPos := 19 }]

theorem c5Tokens_eq :
    (tokenize c5Input).tokens.filter (fun t => t.type != TokenType.COMMENT) = c5Tokens := rfl

theorem c5Input_lexes_clean : (tokenize c5Input).errors = [] := rfl

/-- The message-body loop state stuck at the string-literal token `"a b"`
(cursor 3), with an arbitrary accumulated error list. -/
def c5State (errs : List ParserError) : PState :=
  { tokens := c5Tokens, position := 3, errors := errs }


/-- Prefixing previously-accumulated errors onto a parser state.  The parser
only ever appends to `errors` and never reads it, so every run commutes with
this operation (the `_addErrs` frame lemmas below). -/
def addErrs (e : List ParserError) (s : PState) : PState :=
  { tokens := s.tokens, position := s.position, errors := e ++ s.errors }

/-- The action of `addErrs` on a fueled parser result. -/
def shiftE {α : Type} (e : List ParserError) :
    Except PStuck (α × PState) → Except PStuck (α × PState)
  | .error x => .error x
  | .ok (a, s) => .ok (a, addErrs e s)

theorem pCur_addErrs (e : List ParserError) (s : PState) : pCur (addErrs e s) = pCur s := rfl

theorem pPrev_addErrs (e : List ParserError) (s : PState) : pPrev (addErrs e s) = pPrev s := rfl

theorem pCheck_addErrs (e : List ParserError) (s : PState) (ty : TokenType) :
    pCheck (addErrs e s) ty = pCheck s ty := rfl

theorem nextEffect_addErrs (e : List ParserError) (s : PState) (c : Nat) :
    nextEffect (addErrs e s) c = nextEffect s c := rfl

theorem pAddError_addErrs (e : List ParserError) (s : PState) (m : Str)
    (x : Option (List TokenType)) :
    pAddError (addErrs e s) m x = addErrs e (pAddError s m x) := by
  simp [pAddError, addErrs, pCur, List.append_assoc]

theorem pAdvance_addErrs (e : List ParserError) (s : PState) :
    pAdvance (addErrs e s) = ((pAdvance s).1, addErrs e (pAdvance s).2) := by
  simp only [pAdvance, addErrs]
  split <;> rfl

theorem pMatch1_addErrs (e : List ParserError) (s : PState) (ty : TokenType) :
    pMatch1 (addErrs e s) ty = ((pMatch1 s ty).1, addErrs e (pMatch1 s ty).2) := by
  simp only [pMatch1, pCheck_addErrs, pAdvance_addErrs]
  split <;> rfl

theorem pMatch2_addErrs (e : List ParserError) (s : PState) (ty1 ty2 : TokenType) :
    pMatch2 (addErrs e s) ty1 ty2 = ((pMatch2 s ty1 ty2).1, addErrs e (pMatch2 s ty1 ty2).2) := by
  simp only [pMatch2, pCheck_addErrs, pAdvance_addErrs]
  split <;> (try split) <;> rfl

theorem pExpect_addErrs (e : List ParserError) (s : PState) (ty : TokenType) (m : Str) :
    pExpect (addErrs e s) ty m = ((pExpect s ty m).1, addErrs e (pExpect s ty m).2) := by
  simp only [pExpect, pCheck_addErrs, pAdvance_addErrs, pCur_addErrs, pAddError_addErrs]
  split <;> rfl

theorem pExpectIdentifier_addErrs (e : List ParserError) (s : PState) (m : Str) :
    pExpectIdentifier (addErrs e s) m
      = ((pExpectIdentifier s m).1, addErrs e (pExpectIdentifier s m).2) := by
  simp only [pExpectIdentifier, pCur_addErrs, pAddError_addErrs]
  split <;> rfl

theorem parseStringLitU_addErrs (e : List ParserError) (s : PState) (m : Str) :
    parseStringLitU (addErrs e s) m
      = ((parseStringLitU s m).1, addErrs e (parseStringLitU s m).2) := by
  simp only [parseStringLitU, pExpect_addErrs]

theorem parseNumberLitU_addErrs (e : List ParserError) (s : PState) (m : Str) :
    parseNumberLitU (addErrs e s) m
      = ((parseNumberLitU s m).1, addErrs e (parseNumberLitU s m).2) := by
  simp only [parseNumberLitU, pExpect_addErrs]

theorem parseBooleanLitU_addErrs (e : List ParserError) (s : PState) (m : Str) :
    parseBooleanLitU (addErrs e s) m
      = ((parseBooleanLitU s m).1, addErrs e (parseBooleanLitU s m).2) := by
  simp only [parseBooleanLitU, pCur_addErrs, pMatch2_addErrs, pAddError_addErrs]
  split <;> rfl

theorem parseIdentifierU_addErrs (e : List ParserError) (s : PState) (m : Str) :
    parseIdentifierU (addErrs e s) m
      = ((parseIdentifierU s m).1, addErrs e (parseIdentifierU s m).2) := by
  simp only [parseIdentifierU, pExpectIdentifier_addErrs, pAddError_addErrs]
  split <;> rfl

theorem parseLabelU_addErrs (e : List ParserError) (s : PState) :
    parseLabelU (addErrs e s) = ((parseLabelU s).1, addErrs e (parseLabelU s).2) := by
  simp only [parseLabelU, pCur_addErrs, pAddError_addErrs]
  split <;> rfl

theorem bind_shiftE {α β : Type} (e : List ParserError) (X : Except PStuck (α × PState))
    (k k' : α × PState → Except PStuck (β × PState))
    (h : ∀ a s, k (a, addErrs e s) = shiftE e (k' (a, s))) :
    Except.bind (shiftE e X) k = shiftE e (Except.bind X k') := by
  cases X with
  | error x => rfl
  | ok p =>
    obtain ⟨a, s⟩ := p
    exact h a s

theorem dotLoopF_addErrs (fuel : Nat) :
    ∀ (s : PState) (name : Str) (e : List ParserError),
      dotLoopF fuel (addErrs e s) name = shiftE e (dotLoopF fuel s name) := by
  induction fuel with
  | zero => intro s name e; rfl
  | succ f ih =>
    intro s name e
    simp only [dotLoopF, pMatch1_addErrs, pExpectIdentifier_addErrs]
    split
    · exact ih _ _ _
    · rfl

theorem parseQualifiedIdentifierF_addErrs (fuel : Nat) (s : PState) (m : Str)
    (e : List ParserError) :
    parseQualifiedIdentifierF fuel (addErrs e s) m
      = shiftE e (parseQualifiedIdentifierF fuel s m) := by
  cases fuel with
  | zero => rfl
  | succ f =>
    simp only [parseQualifiedIdentifierF, pExpectIdentifier_addErrs, dotLoopF_addErrs]
    exact bind_shiftE e _ _ _ (fun a s2 => by simp [shiftE, pPrev_addErrs])

theorem argsLoopF_addErrs (fuel : Nat) :
    ∀ (s : PState) (args : List IdentifierNode) (e : List ParserError),
      argsLoopF fuel (addErrs e s) args = shiftE e (argsLoopF fuel s args) := by
  induction fuel with
  | zero => intro s args e; rfl
  | succ f ih =>
    intro s args e
    simp only [argsLoopF, parseQualifiedIdentifierF_addErrs]
    refine bind_shiftE e _ _ _ (fun a s2 => ?_)
    simp only [pMatch1_addErrs]
    split
    · exact ih _ _ _
    · rfl

theorem parseFieldTypeF_addErrs (fuel : Nat) (s : PState) (e : List ParserError) :
    parseFieldTypeF fuel (addErrs e s) = shiftE e (parseFieldTypeF fuel s) := by
  cases fuel with
  | zero => rfl
  | succ f =>
    simp only [parseFieldTypeF, pCur_addErrs, parseQualifiedIdentifierF_addErrs]
    refine bind_shiftE e _ _ _ (fun a s2 => ?_)
    simp only [pMatch1_addErrs]
    split
    · simp only [argsLoopF_addErrs]
      refine bind_shiftE e _ _ _ (fun b s3 => ?_)
      simp only [pExpect_addErrs, pPrev_addErrs]
      rfl
    · simp only [pPrev_addErrs]
      rfl

theorem parseOptionValue_addErrs (e : List ParserError) (s : PState) (t : Token) :
    parseOptionValue (addErrs e s) t
      = ((parseOptionValue s t).1, addErrs e (parseOptionValue s t).2) := by
  simp only [parseOptionValue, pCheck_addErrs, parseStringLitU_addErrs,
    parseNumberLitU_addErrs, parseBooleanLitU_addErrs, pAddError_addErrs]
  split
  · rfl
  · split
    · rfl
    · split <;> rfl

theorem foLoopF_addErrs (fuel : Nat) :
    ∀ (s : PState) (options : List FieldOptionNode) (e : List ParserError),
      foLoopF fuel (addErrs e s) options = shiftE e (foLoopF fuel s options) := by
  induction fuel with
  | zero => intro s options e; rfl
  | succ f ih =>
    intro s options e
    simp only [foLoopF, pCur_addErrs, parseIdentifierU_addErrs, pExpect_addErrs,
      parseOptionValue_addErrs, pPrev_addErrs, pMatch1_addErrs]
    split
    · exact ih _ _ _
    · rfl

theorem parseFieldOptionsF_addErrs (fuel : Nat) (s : PState) (e : List ParserError) :
    parseFieldOptionsF fuel (addErrs e s) = shiftE e (parseFieldOptionsF fuel s) := by
  cases fuel with
  | zero => rfl
  | succ f =>
    simp only [parseFieldOptionsF, pCheck_addErrs, pAdvance_addErrs, foLoopF_addErrs]
    split
    · refine bind_shiftE e _ _ _ (fun a s2 => ?_)
      simp only [pExpect_addErrs]
      rfl
    · rfl

theorem parseFieldF_addErrs (fuel : Nat) (s : PState) (e : List ParserError) :
    parseFieldF fuel (addErrs e s) = shiftE e (parseFieldF fuel s) := by
  cases fuel with
  | zero => rfl
  | succ f =>
    simp only [parseFieldF, pCur_addErrs, parseLabelU_addErrs]
    split <;>
    · dsimp only
      rw [parseFieldTypeF_addErrs]
      refine bind_shiftE e _ _ _ (fun a s2 => ?_)
      dsimp only
      rw [parseIdentifierU_addErrs]
      dsimp only
      rw [pExpect_addErrs]
      dsimp only
      rw [parseNumberLitU_addErrs]
      dsimp only
      rw [parseFieldOptionsF_addErrs]
      refine bind_shiftE e _ _ _ (fun b s3 => ?_)
      dsimp only
      rw [pExpect_addErrs]
      dsimp only
      rw [pPrev_addErrs]
      rfl

def c5StrPos : Position := { line := 1, column := 13, start := 12, endPos := 17 }

/-- The bogus field node each stuck iteration appends: `_parseField` built it
entirely out of failed expectations at the string-literal token. -/
def c5Fld : FieldNode :=
  { name := { value := "a b".data, position := c5StrPos },
    fieldType := { name := "a b".data, arguments := [],
                   position := { line := 1, column := 13, start := 12, endPos := 11 } },
    fieldNumber := { value := "a b".data, position := c5StrPos },
    label := none, options := [],
    position := { line := 1, column := 13, start := 12, endPos := 11 } }

/-- The six errors each stuck iteration appends. -/
def c5IterErrs : List ParserError :=
  [{ message := "Expect field type name".data, position := c5StrPos,
     expected := some [.IDENTIFIER] },
   { message := "Expect field name".data, position := c5StrPos, expected := some [.IDENTIFIER] },
   { message := "Expect field name".data, position := c5StrPos, expected := none },
   { message := "Expect \"=\" after field name".data, position := c5StrPos,
     expected := some [.EQUAL] },
   { message := "Expect field number".data, position := c5StrPos,
     expected := some [.NUMBER_LITERAL] },
   { message := "Expect \";\" after field value".data, position := c5StrPos,
     expected := some [.SEMICOLON] }]

theorem c5_parseField_out0 : parseFieldF 0 (c5State []) = .error .fuelOut := rfl

theorem c5_parseField_out1 : parseFieldF 1 (c5State []) = .error .fuelOut := rfl

theorem c5_parseField_out2 : parseFieldF 2 (c5State []) = .error .fuelOut := rfl

theorem c5_parseField_out3 : parseFieldF 3 (c5State []) = .error .fuelOut := rfl

/-- With enough fuel, `_parseField` on the stuck state returns — consuming NO
token (the cursor stays at 3) — the bogus node and the six errors. -/
theorem c5_parseField_run (n : Nat) :
    parseFieldF (n + 4) (c5State [])
      = .ok (c5Fld, { tokens := c5Tokens, position := 3, errors := c5IterErrs }) := rfl

/-- One unfolding of the message-body loop at the stuck cursor: the branch
chosen is the field branch (`isIdentifierChar("a b")` holds). -/
theorem c5_msgLoop_unfold (g : Nat) (errs : List ParserError) (acc : MsgAcc) :
    messageLoopF (g + 1) { tokens := c5Tokens, position := 3, errors := errs } acc =
      Except.bind (parseFieldF g { tokens := c5Tokens, position := 3, errors := errs })
        (fun r => messageLoopF g r.2 { acc with fields := acc.fields ++ [r.1] }) := rfl

theorem c5State_addErrs (errs : List ParserError) :
    ({ tokens := c5Tokens, position := 3, errors := errs } : PState)
      = addErrs errs (c5State []) := by
  simp [addErrs, c5State]

/-- The message-body loop on the stuck state exhausts ANY amount of fuel:
every iteration consumes zero tokens, so the loop never reaches the closing
brace. -/
theorem c5_msgLoop_diverges (fuel : Nat) :
    ∀ (errs : List ParserError) (acc : MsgAcc),
      messageLoopF fuel { tokens := c5Tokens, position := 3, errors := errs } acc
        = .error .fuelOut := by
  induction fuel with
  | zero => intro errs acc; rfl
  | succ g ih =>
    intro errs acc
    rw [c5_msgLoop_unfold g errs acc, c5State_addErrs errs, parseFieldF_addErrs]
    rcases g with _ | _ | _ | _ | n
    · rw [c5_parseField_out0]; rfl
    · rw [c5_parseField_out1]; rfl
    · rw [c5_parseField_out2]; rfl
    · rw [c5_parseField_out3]; rfl
    · rw [c5_parseField_run n]
      show messageLoopF (n + 4)
          { tokens := c5Tokens, position := 3, errors := errs ++ c5IterErrs } _
        = .error .fuelOut
      exact ih _ _

/-- C5: the parse half of the forward-progress claim is FALSE. On the input
`message M \x7b "a b" \x7d` the message-body loop of `_parseMessage` never
consumes the string-literal token — `isIdentifierChar` (an any-character
regex test) accepts `"a b"` so the field branch is taken, but every
`_expect` inside `_parseField` fails without advancing — so `parse` loops
forever: the fueled embedding exhausts EVERY fuel bound, while a
terminating run bounded by the token count would return for all
sufficiently large fuel. -/
theorem c5_parse_divergence (fuel : Nat) :
    compileFuel fuel c5Input {} = .error .fuelOut := by
  rcases fuel with _ | _ | f
  · rfl
  · rfl
  · show Except.bind (Except.bind (Except.bind (Except.bind
        (messageLoopF f { tokens := c5Tokens, position := 3, errors := [] } {}) _) _) _) _
      = Except.error PStuck.fuelOut
    rw [c5_msgLoop_diverges f [] {}]
    rfl

/-! ### Forward progress of the lexer (the true half of the C5 property)

Every scanning loop of the lexer is monotone in the position, and every
branch of `lexStep` strictly advances it, so the fuel `source.length + 1`
given to `tokMain` is never exhausted: `tokenize` really does terminate
within `input.length` iterations. -/

theorem skipWsLoop_le (fuel : Nat) : ∀ (src : Str) (pos line col : Nat),
    pos ≤ (skipWsLoop fuel src pos line col).1 := by
  induction fuel with
  | zero => intro src pos line col; exact Nat.le_refl _
  | succ f ih =>
    intro src pos line col
    simp only [skipWsLoop]
    repeat' split
    all_goals
      first
      | exact Nat.le_refl _
      | exact Nat.le_trans (Nat.le_succ _) (ih _ _ _ _)

theorem lineCommentLoop_le (fuel : Nat) : ∀ (src : Str) (pos col : Nat),
    pos ≤ (lineCommentLoop fuel src pos col).1 := by
  induction fuel with
  | zero => intro src pos col; exact Nat.le_refl _
  | succ f ih =>
    intro src pos col
    simp only [lineCommentLoop]
    repeat' split
    all_goals
      first
      | exact Nat.le_refl _
      | exact Nat.le_trans (Nat.le_succ _) (ih _ _ _)

theorem blockCommentLoop_le (fuel : Nat) : ∀ (src : Str) (pos line col : Nat),
    pos ≤ (blockCommentLoop fuel src pos line col).1 := by
  induction fuel with
  | zero => intro src pos line col; exact Nat.le_refl _
  | succ f ih =>
    intro src pos line col
    simp only [blockCommentLoop]
    repeat' split
    all_goals
      first
      | exact Nat.le_refl _
      | exact Nat.le_add_right _ 2
      | exact Nat.le_trans (Nat.le_succ _) (ih _ _ _ _)

theorem readStrLoop_le (fuel : Nat) : ∀ (src : Str) (quote : Char) (pos col : Nat) (value : Str),
    pos ≤ (readStrLoop fuel src quote pos col value).2.1 := by
  induction fuel with
  | zero => intro src quote pos col value; exact Nat.le_refl _
  | succ f ih =>
    intro src quote pos col value
    simp only [readStrLoop]
    repeat' split
    all_goals
      first
      | exact Nat.le_refl _
      | exact Nat.le_trans (Nat.le_succ _) (ih _ _ _ _ _)
      | exact Nat.le_trans (Nat.le_add_right _ 2) (ih _ _ _ _ _)

theorem digitLoop_le (fuel : Nat) : ∀ (src : Str) (pos col : Nat),
    pos ≤ (digitLoop fuel src pos col).1 := by
  induction fuel with
  | zero => intro src pos col; exact Nat.le_refl _
  | succ f ih =>
    intro src pos col
    simp only [digitLoop]
    repeat' split
    all_goals
      first
      | exact Nat.le_refl _
      | exact Nat.le_trans (Nat.le_succ _) (ih _ _ _)

theorem identLoop_le (fuel : Nat) : ∀ (src : Str) (pos col : Nat),
    pos ≤ (identLoop fuel src pos col).1 := by
  induction fuel with
  | zero => intro src pos col; exact Nat.le_refl _
  | succ f ih =>
    intro src pos col
    simp only [identLoop]
    repeat' split
    all_goals
      first
      | exact Nat.le_refl _
      | exact Nat.le_trans (Nat.le_succ _) (ih _ _ _)

theorem skipWsLoop_progress (fuel : Nat) (src : Str) (pos line col : Nat)
    (h : pos < src.length) (hw : isWhitespaceC (src.getD pos ' ') = true) :
    pos < (skipWsLoop (fuel + 1) src pos line col).1 := by
  have h1 := skipWsLoop_le fuel src (pos + 1) (line + 1) 1
  have h2 := skipWsLoop_le fuel src (pos + 1) line (col + 1)
  have heq : skipWsLoop (fuel + 1) src pos line col
      = if src.getD pos ' ' = '\n' then skipWsLoop fuel src (pos + 1) (line + 1) 1
        else skipWsLoop fuel src (pos + 1) line (col + 1) := by
    rw [skipWsLoop, if_pos h]
    show (if isWhitespaceC (src.getD pos ' ') = true then
            if src.getD pos ' ' = '\n' then skipWsLoop fuel src (pos + 1) (line + 1) 1
            else skipWsLoop fuel src (pos + 1) line (col + 1)
          else (pos, line, col)) = _
    rw [if_pos hw]
  rw [heq]
  split <;> omega

theorem digitLoop_progress (fuel : Nat) (src : Str) (pos col : Nat)
    (h : pos < src.length) (hd : isDigitC (src.getD pos ' ') = true) :
    pos < (digitLoop (fuel + 1) src pos col).1 := by
  have h1 := digitLoop_le fuel src (pos + 1) (col + 1)
  have heq : digitLoop (fuel + 1) src pos col = digitLoop fuel src (pos + 1) (col + 1) := by
    rw [digitLoop, if_pos ⟨h, hd⟩]
  rw [heq]
  omega

theorem identLoop_progress (fuel : Nat) (src : Str) (pos col : Nat)
    (h : pos < src.length) (hc : isIdentifierCharC (src.getD pos ' ') = true) :
    pos < (identLoop (fuel + 1) src pos col).1 := by
  have h1 := identLoop_le fuel src (pos + 1) (col + 1)
  have heq : identLoop (fuel + 1) src pos col = identLoop fuel src (pos + 1) (col + 1) := by
    rw [identLoop, if_pos ⟨h, hc⟩]
  rw [heq]
  omega

theorem skipWhitespace_progress (s : LexState) (h : s.position < s.source.length)
    (hw : isWhitespaceC (s.source.getD s.position ' ') = true) :
    s.position < (skipWhitespace s).position :=
  skipWsLoop_progress s.source.length s.source s.position s.line s.column h hw

theorem readLineComment_progress (s : LexState) :
    s.position < (readLineComment s).position := by
  have h1 := lineCommentLoop_le (s.source.length + 1) s.source (s.position + 2) (s.column + 2)
  show s.position
      < (lineCommentLoop (s.source.length + 1) s.source (s.position + 2) (s.column + 2)).1
  omega

theorem readBlockComment_progress (s : LexState) :
    s.position < (readBlockComment s).position := by
  have h1 := blockCommentLoop_le (s.source.length + 1) s.source (s.position + 2) s.line
    (s.column + 2)
  simp only [readBlockComment]
  split
  · simp [lexAddError]; omega
  · show s.position < (blockCommentLoop (s.source.length + 1) s.source (s.position + 2) s.line
        (s.column + 2)).1
    omega

theorem readStringLiteral_progress (s : LexState) (q : Char) :
    s.position < (readStringLiteral s q).2.position := by
  have h1 := readStrLoop_le (s.source.length + 1) s.source q (s.position + 1) (s.column + 1) []
  simp only [readStringLiteral]
  split
  · simp [lexAddError]; omega
  · show s.position < (readStrLoop (s.source.length + 1) s.source q (s.position + 1)
        (s.column + 1) []).2.1 + 1
    omega

theorem readNumber_progress (s : LexState) (h : s.position < s.source.length)
    (hc : isDigitC (s.source.getD s.position ' ') = true ∨
          (s.source.getD s.position ' ' = '-' ∧ isDigitO (lexNext s) = true)) :
    s.position < (readNumber s).2.position := by
  have hcur : lexCurrent s = some (s.source.getD s.position ' ') := by
    rw [lexCurrent, if_neg (by omega)]
  rcases hc with hd | ⟨hm, _⟩
  · have hne : ¬(lexCurrent s = some '-') := by
      rw [hcur]
      intro he
      rw [Option.some.injEq] at he
      rw [he] at hd
      exact absurd hd (by decide)
    have h1 := digitLoop_progress s.source.length s.source s.position s.column h hd
    have h2 := digitLoop_le (s.source.length + 1) s.source
      ((digitLoop (s.source.length + 1) s.source s.position s.column).1 + 1)
      ((digitLoop (s.source.length + 1) s.source s.position s.column).2 + 1)
    simp only [readNumber, if_neg hne]
    split <;> omega
  · have hme : lexCurrent s = some '-' := by rw [hcur, hm]
    have h1 := digitLoop_le (s.source.length + 1) s.source (s.position + 1) (s.column + 1)
    have h2 := digitLoop_le (s.source.length + 1) s.source
      ((digitLoop (s.source.length + 1) s.source (s.position + 1) (s.column + 1)).1 + 1)
      ((digitLoop (s.source.length + 1) s.source (s.position + 1) (s.column + 1)).2 + 1)
    simp only [readNumber, if_pos hme]
    split <;> omega

theorem readIdentifier_progress (s : LexState) (h : s.position < s.source.length)
    (hc : isIdentifierCharC (s.source.getD s.position ' ') = true) :
    s.position < (readIdentifier s).2.position :=
  identLoop_progress s.source.length s.source s.position s.column h hc

/-- Every iteration of `tokenize`'s dispatch loop strictly advances the scan
position, whatever character class is at the cursor. -/
theorem lexStep_progress (s : LexState) (h : s.position < s.source.length) :
    s.position < (lexStep s).position := by
  simp only [lexStep]
  split
  · rename_i hw
    exact skipWhitespace_progress s h hw
  · split
    · exact readLineComment_progress s
    · split
      · exact readBlockComment_progress s
      · split
        · have hp := readStringLiteral_progress s (s.source.getD s.position ' ')
          rcases hr : readStringLiteral s (s.source.getD s.position ' ') with ⟨ot, s'⟩
          rw [hr] at hp
          rcases ot with _ | t
          · exact hp
          · exact hp
        · split
          · rename_i hd
            exact readNumber_progress s h hd
          · split
            · rename_i hi
              exact readIdentifier_progress s h
                (by simp only [isIdentifierCharC, decide_eq_true_eq]; exact Or.inl hi)
            · split
              · exact Nat.lt_succ_self s.position
              · exact Nat.lt_succ_self s.position

/-! ### C8 — string-literal decoding -/

/-- A piece of a well-formed double-quoted literal body: a plain character or
a backslash escape. -/
inductive StrPiece where
  | raw (c : Char)
  | esc (c : Char)
deriving DecidableEq, Repr

def encodePiece : StrPiece → Str
  | .raw c => [c]
  | .esc c => ['\\', c]

def encodeAll : List StrPiece → Str
  | [] => []
  | p :: t => encodePiece p ++ encodeAll t

/-- What `_readStringLiteral`'s escape chain makes of one piece. -/
def decodePiece : StrPiece → Char
  | .raw c => c
  | .esc c => decodeEscape c

def decodeAll (ps : List StrPiece) : Str := ps.map decodePiece

/-- A raw piece is neither the closing quote nor a backslash (those start an
`esc` piece). -/
def wfPiece : StrPiece → Bool
  | .raw c => c ≠ '"' ∧ c ≠ '\\'
  | .esc _ => true

/-- Encoded length of a literal body. -/
def encLen : List StrPiece → Nat
  | [] => 0
  | .raw _ :: t => encLen t + 1
  | .esc _ :: t => encLen t + 2

theorem encodeAll_length (ps : List StrPiece) : (encodeAll ps).length = encLen ps := by
  induction ps with
  | nil => rfl
  | cons p t ih => cases p <;> simp [encodeAll, encodePiece, encLen, ih]

theorem encLen_ge (ps : List StrPiece) : ps.length ≤ encLen ps := by
  induction ps with
  | nil => exact Nat.le_refl _
  | cons p t ih => cases p <;> simp [encLen] <;> omega

theorem drop_cons_facts (src : Str) (pos : Nat) (x : Char) (t : Str)
    (h : src.drop pos = x :: t) :
    pos < src.length ∧ src.getD pos ' ' = x ∧ src.drop (pos + 1) = t := by
  have hlen := congrArg List.length h
  simp [List.length_drop] at hlen
  have hpos : pos < src.length := by omega
  refine ⟨hpos, ?_, ?_⟩
  · have h2 : (src.drop pos)[0]? = some x := by rw [h]; simp
    rw [List.getElem?_drop, Nat.add_zero] at h2
    rw [List.getD_eq_getElem?_getD, h2]
    rfl
  · have h3 : src.drop (pos + 1) = (src.drop pos).drop 1 := by
      rw [List.drop_drop, Nat.add_comm]
    rw [h3, h]
    rfl

/-- Running `_readStringLiteral`'s scan over an encoded body followed by the
closing quote: each piece is decoded and appended, the cursor stops on the
quote. -/
theorem readStrLoop_run (pieces : List StrPiece) :
    ∀ (fuel : Nat) (src : Str) (pos col : Nat) (value : Str) (rest : Str),
      (∀ p ∈ pieces, wfPiece p = true) →
      src.drop pos = encodeAll pieces ++ '"' :: rest →
      pieces.length < fuel →
      readStrLoop fuel src '"' pos col value
        = (value ++ decodeAll pieces, pos + encLen pieces, col + encLen pieces) := by
  induction pieces with
  | nil =>
    intro fuel src pos col value rest hwf hsrc hfuel
    obtain ⟨hpos, hget, -⟩ := drop_cons_facts src pos '"' rest (by simpa [encodeAll] using hsrc)
    rcases fuel with _ | f
    · exact absurd hfuel (by simp)
    · rw [readStrLoop, if_neg (by rw [hget]; simp)]
      simp [decodeAll, encLen]
  | cons p t ih =>
    intro fuel src pos col value rest hwf hsrc hfuel
    rcases fuel with _ | f
    · exact absurd hfuel (by simp)
    · have hwf' : ∀ q ∈ t, wfPiece q = true := fun q hq => hwf q (List.mem_cons_of_mem _ hq)
      cases p with
      | raw c =>
        have hwfc := hwf (.raw c) (List.mem_cons_self _ _)
        simp [wfPiece] at hwfc
        have hsrc' : src.drop pos = c :: (encodeAll t ++ '"' :: rest) := by
          simpa [encodeAll, encodePiece] using hsrc
        obtain ⟨hpos, hget, hdrop⟩ := drop_cons_facts src pos c _ hsrc'
        simp only [readStrLoop, hget]
        rw [if_pos ⟨hpos, hwfc.1⟩, if_neg (fun hc => hwfc.2 hc.1)]
        rw [ih f src (pos + 1) (col + 1) (value ++ [c]) rest hwf' hdrop (by simp at hfuel ⊢; omega)]
        simp only [Prod.mk.injEq, decodeAll, List.map, decodePiece, encLen]
        refine ⟨by simp, by omega, by omega⟩
      | esc c =>
        have hsrc' : src.drop pos = '\\' :: (c :: (encodeAll t ++ '"' :: rest)) := by
          simpa [encodeAll, encodePiece] using hsrc
        obtain ⟨hpos, hget, hdrop1⟩ := drop_cons_facts src pos '\\' _ hsrc'
        obtain ⟨hpos1, hget1, hdrop2⟩ := drop_cons_facts src (pos + 1) c _ hdrop1
        simp only [readStrLoop, hget, hget1]
        rw [if_pos ⟨hpos, by decide⟩, if_pos ⟨trivial, hpos1⟩]
        rw [ih f src (pos + 2) (col + 2) (value ++ [decodeEscape c]) rest hwf' hdrop2
          (by simp at hfuel ⊢; omega)]
        simp only [Prod.mk.injEq, decodeAll, List.map, decodePiece, encLen]
        refine ⟨by simp, by omega, by omega⟩

/-- Running the scan over an encoded body that reaches the end of input with
no closing quote: everything is consumed and decoded. -/
theorem readStrLoop_run_end (pieces : List StrPiece) :
    ∀ (fuel : Nat) (src : Str) (pos col : Nat) (value : Str),
      (∀ p ∈ pieces, wfPiece p = true) →
      src.drop pos = encodeAll pieces →
      pieces.length < fuel →
      readStrLoop fuel src '"' pos col value
        = (value ++ decodeAll pieces, pos + encLen pieces, col + encLen pieces) := by
  induction pieces with
  | nil =>
    intro fuel src pos col value hwf hsrc hfuel
    have hlen := congrArg List.length hsrc
    simp [List.length_drop, encodeAll] at hlen
    rcases fuel with _ | f
    · exact absurd hfuel (by simp)
    · rw [readStrLoop, if_neg (by rintro ⟨h1, -⟩; omega)]
      simp [decodeAll, encLen]
  | cons p t ih =>
    intro fuel src pos col value hwf hsrc hfuel
    rcases fuel with _ | f
    · exact absurd hfuel (by simp)
    · have hwf' : ∀ q ∈ t, wfPiece q = true := fun q hq => hwf q (List.mem_cons_of_mem _ hq)
      cases p with
      | raw c =>
        have hwfc := hwf (.raw c) (List.mem_cons_self _ _)
        simp [wfPiece] at hwfc
        have hsrc' : src.drop pos = c :: encodeAll t := by
          simpa [encodeAll, encodePiece] using hsrc
        obtain ⟨hpos, hget, hdrop⟩ := drop_cons_facts src pos c _ hsrc'
        simp only [readStrLoop, hget]
        rw [if_pos ⟨hpos, hwfc.1⟩, if_neg (fun hc => hwfc.2 hc.1)]
        rw [ih f src (pos + 1) (col + 1) (value ++ [c]) hwf' hdrop (by simp at hfuel ⊢; omega)]
        simp only [Prod.mk.injEq, decodeAll, List.map, decodePiece, encLen]
        refine ⟨by simp, by omega, by omega⟩
      | esc c =>
        have hsrc' : src.drop pos = '\\' :: (c :: encodeAll t) := by
          simpa [encodeAll, encodePiece] using hsrc
        obtain ⟨hpos, hget, hdrop1⟩ := drop_cons_facts src pos '\\' _ hsrc'
        obtain ⟨hpos1, hget1, hdrop2⟩ := drop_cons_facts src (pos + 1) c _ hdrop1
        simp only [readStrLoop, hget, hget1]
        rw [if_pos ⟨hpos, by decide⟩, if_pos ⟨trivial, hpos1⟩]
        rw [ih f src (pos + 2) (col + 2) (value ++ [decodeEscape c]) hwf' hdrop2
          (by simp at hfuel ⊢; omega)]
        simp only [Prod.mk.injEq, decodeAll, List.map, decodePiece, encLen]
        refine ⟨by simp, by omega, by omega⟩

/-- C8: `_readStringLiteral` (invoked by `tokenize` at each `"`) decodes the
literal body piece by piece — `\n`, `\t`, `\r`, `\\`, `\"` become the escaped
character, any other backslash escape passes the following character through
— into a STRING_LITERAL token when a closing quote is found, and produces no
token but records the "Unterminated string literal" lexical error when the
input ends first. -/
theorem c8_string_literal_decoding :
    (∀ (s : LexState) (pieces : List StrPiece) (rest : Str),
       (∀ p ∈ pieces, wfPiece p = true) →
       s.source.drop (s.position + 1) = encodeAll pieces ++ '"' :: rest →
       readStringLiteral s '"'
         = (some { type := .STRING_LITERAL, value := decodeAll pieces,
                   line := s.line, column := s.column, start := s.position,
                   endPos := s.position + 1 + encLen pieces + 1 },
            { s with position := s.position + 1 + encLen pieces + 1,
                     column := s.column + 1 + encLen pieces + 1 })) ∧
    (∀ (s : LexState) (pieces : List StrPiece),
       (∀ p ∈ pieces, wfPiece p = true) →
       s.source.drop (s.position + 1) = encodeAll pieces →
       readStringLiteral s '"'
         = (none, { s with position := s.position + 1 + encLen pieces,
                           column := s.column + 1 + encLen pieces,
                           errors := s.errors ++
                             [{ message := "Unterminated string literal".data,
                                line := s.line, column := s.column }] })) := by
  constructor
  · intro s pieces rest hwf hsrc
    have hlen := congrArg List.length hsrc
    simp [List.length_drop, encodeAll_length] at hlen
    have hge := encLen_ge pieces
    have hrun := readStrLoop_run pieces (s.source.length + 1) s.source (s.position + 1)
      (s.column + 1) [] rest hwf hsrc (by omega)
    simp only [readStringLiteral, hrun]
    rw [if_neg (by omega)]
    rfl
  · intro s pieces hwf hsrc
    have hlen := congrArg List.length hsrc
    simp [List.length_drop, encodeAll_length] at hlen
    have hge := encLen_ge pieces
    have hrun := readStrLoop_run_end pieces (s.source.length + 1) s.source (s.position + 1)
      (s.column + 1) [] hwf hsrc (by omega)
    simp only [readStringLiteral, hrun]
    rw [if_pos (by omega)]
    rfl

/-- Witness: decoding `"a\nb\"\q"x` from position 0 yields the value
`a`, newline, `b`, `"`, `q` and stops after the closing quote; the
unterminated input `"a\n` yields no token and the lexical error. -/
theorem c8_string_literal_decoding_witness :
    (readStringLiteral { source := "\"a\\nb\\\"\\q\"x".data, position := 0, line := 1,
                         column := 1, tokens := [], errors := [] } '"'
       = (some { type := .STRING_LITERAL, value := "a\nb\"q".data,
                 line := 1, column := 1, start := 0, endPos := 10 },
          { source := "\"a\\nb\\\"\\q\"x".data, position := 10, line := 1, column := 11,
            tokens := [], errors := [] })) ∧
    (readStringLiteral { source := "\"a\\n".data, position := 0, line := 1, column := 1,
                         tokens := [], errors := [] } '"'
       = (none, { source := "\"a\\n".data, position := 4, line := 1, column := 5,
                  tokens := [],
                  errors := [{ message := "Unterminated string literal".data,
                               line := 1, column := 1 }] })) := by
  constructor
  · exact c8_string_literal_decoding.1
      { source := "\"a\\nb\\\"\\q\"x".data, position := 0, line := 1, column := 1,
        tokens := [], errors := [] }
      [.raw 'a', .esc 'n', .raw 'b', .esc '"', .esc 'q'] "x".data (by decide) rfl
  · exact c8_string_literal_decoding.2
      { source := "\"a\\n".data, position := 0, line := 1, column := 1,
        tokens := [], errors := [] }
      [.raw 'a', .esc 'n'] (by decide) rfl
